import Mathlib

/-
  Verification of the VeloView LiDAR SLAM engine against its interface
  `src/VelodyneHDL/vtkSlam.h`.  The repository ships only the class
  declaration with extensive doc comments; the method bodies
  (vtkSlam.cxx, RollingGrid) are not part of the source tree, so the
  operations below are modelled from the specification and from the
  header's own comments, and the claims are settled against these models.

  Geometry is embedded over ℚ (the C++ code uses IEEE doubles; exact
  rational arithmetic realises the "exact up to numeric tolerance"
  readings of the spec).
-/

namespace VeloSlam

/-- A 3-vector over ℚ, standing for `Eigen::Matrix<double, 3, 1>`. -/
structure V3 where
  x : ℚ
  y : ℚ
  z : ℚ
deriving DecidableEq

instance : Inhabited V3 := ⟨⟨0, 0, 0⟩⟩

def V3.add (a b : V3) : V3 := ⟨a.x + b.x, a.y + b.y, a.z + b.z⟩

def V3.sub (a b : V3) : V3 := ⟨a.x - b.x, a.y - b.y, a.z - b.z⟩

def V3.smul (c : ℚ) (a : V3) : V3 := ⟨c * a.x, c * a.y, c * a.z⟩

def V3.zero : V3 := ⟨0, 0, 0⟩

instance : Add V3 := ⟨V3.add⟩

instance : Sub V3 := ⟨V3.sub⟩

instance : SMul ℚ V3 := ⟨V3.smul⟩

instance : Zero V3 := ⟨V3.zero⟩

/-- Euclidean dot product. -/
def V3.dot (a b : V3) : ℚ := a.x * b.x + a.y * b.y + a.z * b.z

/-- Squared Euclidean norm. -/
def V3.sqNorm (a : V3) : ℚ := a.x ^ 2 + a.y ^ 2 + a.z ^ 2

theorem V3.sqNorm_nonneg (a : V3) : 0 ≤ a.sqNorm := by
  unfold V3.sqNorm; positivity

/-- A 3x3 matrix over ℚ, standing for `Eigen::Matrix<double, 3, 3>`. -/
structure M3 where
  m00 : ℚ
  m01 : ℚ
  m02 : ℚ
  m10 : ℚ
  m11 : ℚ
  m12 : ℚ
  m20 : ℚ
  m21 : ℚ
  m22 : ℚ
deriving DecidableEq

/-- The identity matrix; member `I3` of `vtkSlam` (vtkSlam.h line 522). -/
def I3 : M3 := ⟨1, 0, 0, 0, 1, 0, 0, 0, 1⟩

def M3.sub (A B : M3) : M3 :=
  ⟨A.m00 - B.m00, A.m01 - B.m01, A.m02 - B.m02,
   A.m10 - B.m10, A.m11 - B.m11, A.m12 - B.m12,
   A.m20 - B.m20, A.m21 - B.m21, A.m22 - B.m22⟩

def M3.transpose (A : M3) : M3 :=
  ⟨A.m00, A.m10, A.m20, A.m01, A.m11, A.m21, A.m02, A.m12, A.m22⟩

def M3.mul (A B : M3) : M3 :=
  ⟨A.m00 * B.m00 + A.m01 * B.m10 + A.m02 * B.m20,
   A.m00 * B.m01 + A.m01 * B.m11 + A.m02 * B.m21,
   A.m00 * B.m02 + A.m01 * B.m12 + A.m02 * B.m22,
   A.m10 * B.m00 + A.m11 * B.m10 + A.m12 * B.m20,
   A.m10 * B.m01 + A.m11 * B.m11 + A.m12 * B.m21,
   A.m10 * B.m02 + A.m11 * B.m12 + A.m12 * B.m22,
   A.m20 * B.m00 + A.m21 * B.m10 + A.m22 * B.m20,
   A.m20 * B.m01 + A.m21 * B.m11 + A.m22 * B.m21,
   A.m20 * B.m02 + A.m21 * B.m12 + A.m22 * B.m22⟩

instance : Mul M3 := ⟨M3.mul⟩

/-- Matrix-vector product. -/
def M3.mulVec (A : M3) (v : V3) : V3 :=
  ⟨A.m00 * v.x + A.m01 * v.y + A.m02 * v.z,
   A.m10 * v.x + A.m11 * v.y + A.m12 * v.z,
   A.m20 * v.x + A.m21 * v.y + A.m22 * v.z⟩

/-- Outer product `n * n.t` of the header comments (vtkSlam.h lines 485-499). -/
def outer (n m : V3) : M3 :=
  ⟨n.x * m.x, n.x * m.y, n.x * m.z,
   n.y * m.x, n.y * m.y, n.y * m.z,
   n.z * m.x, n.z * m.y, n.z * m.z⟩

/-- The quadratic form `v.t * A * v` appearing in the residual
`(R*X+T - P).t * A * (R*X+T - P)` (vtkSlam.h lines 456-461). -/
def qform (A : M3) (v : V3) : ℚ := v.dot (A.mulVec v)

/-- Modelled from the spec: vtkSlam.cxx is absent.  The matrix `A` that
`ComputeLineDistanceParameters` stores in `Avalues` for an accepted edge
match with unit line direction `n`, per the header comment
`A = (I - n*n.t).t * (I - n*n.t)` (vtkSlam.h lines 51, 485-499). -/
def ComputeLineDistanceParametersA (n : V3) : M3 :=
  (M3.sub I3 (outer n n)).transpose * M3.sub I3 (outer n n)

/-- Squared orthogonal distance from the point `q` to the line through `P`
with unit direction `n`: the squared norm of the residual of `q - P` after
removing its component along `n`. -/
def ptLineSqDist (q P n : V3) : ℚ :=
  ((q - P) - ((q - P).dot n) • n).sqNorm

@[simp] theorem V3.sub_def (a b : V3) : a - b = V3.sub a b := rfl

@[simp] theorem V3.add_def (a b : V3) : a + b = V3.add a b := rfl

@[simp] theorem V3.smul_def (c : ℚ) (a : V3) : c • a = V3.smul c a := rfl

@[simp] theorem M3.mul_def (A B : M3) : A * B = M3.mul A B := rfl

/-- C8: for an accepted edge match with unit line direction `n`, the matrix
`A = (I − n·nᵀ)ᵀ(I − n·nᵀ)` stored by `ComputeLineDistanceParameters`
equals `I − n·nᵀ` (idempotent, symmetric, positive semidefinite), and the
residual form `(Rx+T−P)ᵀ A (Rx+T−P)` — here with `q` standing for `Rx+T` —
is exactly the squared orthogonal distance from `q` to the line through `P`
with direction `n`, minimising `‖q − P − s·n‖²` over all `s`. -/
theorem ComputeLineDistanceParameters_A_spec (n q P : V3) (s : ℚ)
    (h : n.sqNorm = 1) :
    ComputeLineDistanceParametersA n = M3.sub I3 (outer n n) ∧
    ComputeLineDistanceParametersA n * ComputeLineDistanceParametersA n =
      ComputeLineDistanceParametersA n ∧
    (ComputeLineDistanceParametersA n).transpose =
      ComputeLineDistanceParametersA n ∧
    0 ≤ qform (ComputeLineDistanceParametersA n) (q - P) ∧
    qform (ComputeLineDistanceParametersA n) (q - P) = ptLineSqDist q P n ∧
    qform (ComputeLineDistanceParametersA n) (q - P) ≤
      (q - P - s • n).sqNorm := by
  obtain ⟨a, b, c⟩ := n
  obtain ⟨qx, qy, qz⟩ := q
  obtain ⟨px, py, pz⟩ := P
  simp only [V3.sqNorm] at h
  have hA : ComputeLineDistanceParametersA ⟨a, b, c⟩ =
      M3.sub I3 (outer ⟨a, b, c⟩ ⟨a, b, c⟩) := by
    simp only [ComputeLineDistanceParametersA, M3.sub, M3.transpose, M3.mul,
      M3.mul_def, outer, I3, M3.mk.injEq]
    refine ⟨?_, ?_, ?_, ?_, ?_, ?_, ?_, ?_, ?_⟩
    · linear_combination (a * a) * h
    · linear_combination (a * b) * h
    · linear_combination (a * c) * h
    · linear_combination (b * a) * h
    · linear_combination (b * b) * h
    · linear_combination (b * c) * h
    · linear_combination (c * a) * h
    · linear_combination (c * b) * h
    · linear_combination (c * c) * h
  have hq : qform (ComputeLineDistanceParametersA ⟨a, b, c⟩)
      (V3.mk qx qy qz - V3.mk px py pz) =
      ptLineSqDist ⟨qx, qy, qz⟩ ⟨px, py, pz⟩ ⟨a, b, c⟩ := by
    simp only [qform, ptLineSqDist, ComputeLineDistanceParametersA,
      V3.sub_def, V3.smul_def, V3.sub, V3.smul, V3.dot, V3.sqNorm,
      M3.sub, M3.transpose, M3.mul, M3.mul_def, M3.mulVec, outer, I3]
    ring
  refine ⟨hA, ?_, ?_, ?_, hq, ?_⟩
  · rw [hA]
    simp only [M3.sub, M3.mul_def, M3.mul, outer, I3, M3.mk.injEq]
    refine ⟨?_, ?_, ?_, ?_, ?_, ?_, ?_, ?_, ?_⟩
    · linear_combination (a * a) * h
    · linear_combination (a * b) * h
    · linear_combination (a * c) * h
    · linear_combination (b * a) * h
    · linear_combination (b * b) * h
    · linear_combination (b * c) * h
    · linear_combination (c * a) * h
    · linear_combination (c * b) * h
    · linear_combination (c * c) * h
  · rw [hA]
    simp only [M3.sub, M3.transpose, outer, I3, M3.mk.injEq]
    refine ⟨?_, ?_, ?_, ?_, ?_, ?_, ?_, ?_, ?_⟩ <;> ring
  · rw [hq]
    exact V3.sqNorm_nonneg _
  · rw [hq]
    simp only [ptLineSqDist, V3.sub_def, V3.smul_def, V3.sub, V3.smul,
      V3.dot, V3.sqNorm]
    have h1 : a ^ 2 + b ^ 2 + c ^ 2 - 1 = 0 := by linarith
    have key : ((qx - px - s * a) ^ 2 + (qy - py - s * b) ^ 2 +
          (qz - pz - s * c) ^ 2) -
        ((qx - px - ((qx - px) * a + (qy - py) * b + (qz - pz) * c) * a) ^ 2 +
         (qy - py - ((qx - px) * a + (qy - py) * b + (qz - pz) * c) * b) ^ 2 +
         (qz - pz - ((qx - px) * a + (qy - py) * b + (qz - pz) * c) * c) ^ 2) =
        (s - ((qx - px) * a + (qy - py) * b + (qz - pz) * c)) ^ 2 +
        (s ^ 2 - ((qx - px) * a + (qy - py) * b + (qz - pz) * c) ^ 2) *
          (a ^ 2 + b ^ 2 + c ^ 2 - 1) := by ring
    have h0 : (s ^ 2 - ((qx - px) * a + (qy - py) * b + (qz - pz) * c) ^ 2) *
        (a ^ 2 + b ^ 2 + c ^ 2 - 1) = 0 := by rw [h1]; ring
    have h2 := sq_nonneg (s - ((qx - px) * a + (qy - py) * b + (qz - pz) * c))
    linarith [key, h0, h2]

/-- Witness for C8 at the concrete unit direction `(3/5, 4/5, 0)`,
`q = (2, 3, 4)`, `P = (0, 1, 0)`, `s = 5`. -/
theorem ComputeLineDistanceParameters_A_spec_witness :
    V3.sqNorm ⟨3/5, 4/5, 0⟩ = 1 ∧
    (ComputeLineDistanceParametersA ⟨3/5, 4/5, 0⟩ =
        M3.sub I3 (outer ⟨3/5, 4/5, 0⟩ ⟨3/5, 4/5, 0⟩) ∧
      ComputeLineDistanceParametersA ⟨3/5, 4/5, 0⟩ *
          ComputeLineDistanceParametersA ⟨3/5, 4/5, 0⟩ =
        ComputeLineDistanceParametersA ⟨3/5, 4/5, 0⟩ ∧
      (ComputeLineDistanceParametersA ⟨3/5, 4/5, 0⟩).transpose =
        ComputeLineDistanceParametersA ⟨3/5, 4/5, 0⟩ ∧
      0 ≤ qform (ComputeLineDistanceParametersA ⟨3/5, 4/5, 0⟩)
          (V3.mk 2 3 4 - V3.mk 0 1 0) ∧
      qform (ComputeLineDistanceParametersA ⟨3/5, 4/5, 0⟩)
          (V3.mk 2 3 4 - V3.mk 0 1 0) =
        ptLineSqDist ⟨2, 3, 4⟩ ⟨0, 1, 0⟩ ⟨3/5, 4/5, 0⟩ ∧
      qform (ComputeLineDistanceParametersA ⟨3/5, 4/5, 0⟩)
          (V3.mk 2 3 4 - V3.mk 0 1 0) ≤
        (V3.mk 2 3 4 - V3.mk 0 1 0 - (5 : ℚ) • V3.mk (3/5) (4/5) 0).sqNorm) :=
  ⟨by norm_num [V3.sqNorm],
   ComputeLineDistanceParameters_A_spec ⟨3/5, 4/5, 0⟩ ⟨2, 3, 4⟩ ⟨0, 1, 0⟩ 5
     (by norm_num [V3.sqNorm])⟩

/-! ## Scan organizer (§4.A, `ConvertAndSortScanLines`) -/

/-- An input LiDAR point as delivered to `AddFrame`: position, intensity,
raw laser id and in-sweep relative time (spec §3, §6). -/
structure SlamPoint where
  x : ℚ
  y : ℚ
  z : ℚ
  intensity : ℚ
  laserId : ℕ
  relTime : ℚ
deriving DecidableEq

instance : Inhabited SlamPoint := ⟨⟨0, 0, 0, 0, 0, 0⟩⟩

/-- Beam index of a point after the user-provided `laser_id → beam_index`
remapping stored in the member `LaserIdMapping` (vtkSlam.h lines 277-278). -/
def beamIndexOf (LaserIdMapping : List ℕ) (p : SlamPoint) : ℕ :=
  LaserIdMapping.getD p.laserId 0

/-- Insert an element into a list sorted by the key `key`. -/
def insertByKey (key : α → ℚ) (a : α) : List α → List α
  | [] => [a]
  | b :: l => if key a ≤ key b then a :: b :: l else b :: insertByKey key a l

/-- Insertion sort by the key `key`; models the per-scan-line sort by
azimuth of §4.A. -/
def sortByKey (key : α → ℚ) : List α → List α
  | [] => []
  | a :: l => insertByKey key a (sortByKey key l)

theorem insertByKey_perm (key : α → ℚ) (a : α) (l : List α) :
    (insertByKey key a l).Perm (a :: l) := by
  induction l with
  | nil => exact List.Perm.refl _
  | cons b t ih =>
    unfold insertByKey
    by_cases h : key a ≤ key b
    · simp only [if_pos h]
      exact List.Perm.refl _
    · simp only [if_neg h]
      exact (ih.cons b).trans (List.Perm.swap a b t)

theorem sortByKey_perm (key : α → ℚ) (l : List α) :
    (sortByKey key l).Perm l := by
  induction l with
  | nil => exact List.Perm.refl _
  | cons a t ih =>
    exact (insertByKey_perm key a (sortByKey key t)).trans (ih.cons a)

theorem flatten_map_perm_congr (bs : List ℕ) (F G : ℕ → List α)
    (h : ∀ b ∈ bs, (F b).Perm (G b)) :
    ((bs.map F).flatten).Perm ((bs.map G).flatten) := by
  induction bs with
  | nil => exact List.Perm.refl _
  | cons b t ih =>
    simp only [List.map_cons, List.flatten_cons]
    exact (h b (List.mem_cons_self b t)).append
      (ih fun x hx => h x (List.mem_cons_of_mem _ hx))

theorem flatten_map_insert (a : α) (b0 : ℕ) (bs : List ℕ) (F G : ℕ → List α)
    (hmem : b0 ∈ bs) (hnd : bs.Nodup) (hb0 : F b0 = a :: G b0)
    (hoth : ∀ b ∈ bs, b ≠ b0 → F b = G b) :
    ((bs.map F).flatten).Perm (a :: (bs.map G).flatten) := by
  induction bs with
  | nil => cases hmem
  | cons c t ih =>
    simp only [List.map_cons, List.flatten_cons]
    rcases List.mem_cons.mp hmem with rfl | hmem'
    · have hFt : t.map F = t.map G := by
        apply List.map_congr_left
        intro b hb
        exact hoth b (List.mem_cons_of_mem _ hb)
          (fun hbc => (List.nodup_cons.mp hnd).1 (hbc ▸ hb))
      rw [hb0, hFt]
      exact List.Perm.refl _
    · have hcb : c ≠ b0 := fun hcb => (List.nodup_cons.mp hnd).1 (hcb ▸ hmem')
      rw [hoth c (List.mem_cons_self c t) hcb]
      have hrec := ih hmem' (List.nodup_cons.mp hnd).2
        (fun b hb hne => hoth b (List.mem_cons_of_mem _ hb) hne)
      exact ((hrec.append_left (G c))).trans List.perm_middle

theorem flatten_buckets_perm (f : β → ℕ) (N : ℕ) (l : List β)
    (h : ∀ e ∈ l, f e < N) :
    (((List.range N).map fun b => l.filter fun e => f e == b).flatten).Perm l := by
  induction l with
  | nil => simp
  | cons a t ih =>
    have hfa : f a ∈ List.range N := List.mem_range.mpr (h a (List.mem_cons_self a t))
    have key := flatten_map_insert a (f a) (List.range N)
        (fun b => (a :: t).filter fun e => f e == b)
        (fun b => t.filter fun e => f e == b)
        hfa (List.nodup_range N)
        (by simp [List.filter_cons])
        (by
          intro b _ hne
          have : (f a == b) = false := beq_eq_false_iff_ne.mpr fun he => hne he.symm
          simp [List.filter_cons, this])
    exact key.trans ((ih fun e he => h e (List.mem_cons_of_mem _ he)).cons a)

/-- The per-beam bucket built by the scan organizer: the points of the
input frame (paired with their original frame index) whose remapped beam
index is `b`, sorted by the azimuth key `az`. -/
def scanBucket (az : SlamPoint → ℚ) (m : List ℕ) (input : List SlamPoint)
    (b : ℕ) : List (ℕ × SlamPoint) :=
  sortByKey (fun e => az e.2)
    ((List.enumFrom 0 input).filter fun e => beamIndexOf m e.2 == b)

/-- The three outputs of `ConvertAndSortScanLines` (vtkSlam.h lines
260-265): the frame re-organized into per-beam scan lines, and the
forward/inverse index mappings between the input frame and the scan
lines. -/
structure OrganizedFrame where
  pclCurrentFrameByScan : List (List SlamPoint)
  FromVTKtoPCLMapping : List (ℕ × ℕ)
  FromPCLtoVTKMapping : List (List ℕ)

/-- Modelled from the spec: vtkSlam.cxx is absent.  `ConvertAndSortScanLines`
(vtkSlam.h lines 376-379) partitions the input frame into `NLasers` scan
lines by remapped beam index, sorts each line by azimuth (the key `az`
abstracts `atan2(y,x)`, which is transcendental), and records for each
original index its (scan, position) address plus the inverse mapping
(§4.A). -/
def ConvertAndSortScanLines (az : SlamPoint → ℚ) (m : List ℕ) (N : ℕ)
    (input : List SlamPoint) : OrganizedFrame where
  pclCurrentFrameByScan :=
    (List.range N).map fun b => (scanBucket az m input b).map Prod.snd
  FromVTKtoPCLMapping :=
    (List.enumFrom 0 input).map fun e =>
      (beamIndexOf m e.2,
       ((scanBucket az m input (beamIndexOf m e.2)).map Prod.fst).indexOf e.1)
  FromPCLtoVTKMapping :=
    (List.range N).map fun b => (scanBucket az m input b).map Prod.fst

/-- Azimuth key reading off the x coordinate; a stand-in for `atan2(y,x)`
on concrete frames. -/
def azX : SlamPoint → ℚ := fun p => p.x

/-- A concrete three-point frame over two lasers (raw laser ids 0, 1, 0),
used to evaluate the organizer. -/
def witFrame : List SlamPoint :=
  [⟨5, 0, 0, 0, 0, 0⟩, ⟨2, 0, 0, 0, 1, 0⟩, ⟨1, 0, 0, 0, 0, 0⟩]

theorem getD_map_range (F : ℕ → α) (N b : ℕ) (hb : b < N) (d : α) :
    ((List.range N).map F).getD b d = F b := by
  rw [List.getD_eq_getElem?_getD, List.getElem?_map, List.getElem?_range hb]
  rfl

theorem flatten_scanBuckets_perm (az : SlamPoint → ℚ) (m : List ℕ) (N : ℕ)
    (input : List SlamPoint) (hbeam : ∀ p ∈ input, beamIndexOf m p < N) :
    (((List.range N).map (scanBucket az m input)).flatten).Perm
      (List.enumFrom 0 input) := by
  refine (flatten_map_perm_congr _ _ _ fun b _ => sortByKey_perm _ _).trans ?_
  exact flatten_buckets_perm (fun e => beamIndexOf m e.2) N _
    (fun e he => hbeam e.2 (List.snd_mem_of_mem_enumFrom he))

/-- C2: the scan organizer is a multiset-preserving permutation.
Concatenating the produced scan lines reproduces the input point multiset;
the concatenated inverse mapping `FromPCLtoVTKMapping` is a permutation of
the input indices (every input point is reachable and appears exactly
once); and at the forward address `FromVTKtoPCLMapping[i] = (b, pos)` the
scan line holds exactly the input point while the inverse mapping
reconstructs the input index `i`. -/
theorem ConvertAndSortScanLines_spec (az : SlamPoint → ℚ) (m : List ℕ)
    (N : ℕ) (input : List SlamPoint) (i b pos : ℕ)
    (hbeam : ∀ p ∈ input, beamIndexOf m p < N)
    (hi : i < input.length)
    (haddr : (ConvertAndSortScanLines az m N input).FromVTKtoPCLMapping.getD
      i (0, 0) = (b, pos)) :
    ((ConvertAndSortScanLines az m N input).pclCurrentFrameByScan.flatten).Perm
      input ∧
    ((ConvertAndSortScanLines az m N input).FromPCLtoVTKMapping.flatten).Perm
      (List.range input.length) ∧
    b < N ∧
    pos < (((ConvertAndSortScanLines az m N
      input).pclCurrentFrameByScan).getD b []).length ∧
    (((ConvertAndSortScanLines az m N input).pclCurrentFrameByScan).getD
        b []).getD pos default = input.getD i default ∧
    (((ConvertAndSortScanLines az m N input).FromPCLtoVTKMapping).getD
        b []).getD pos 0 = i := by
  have hperm := flatten_scanBuckets_perm az m N input hbeam
  -- part 1: the concatenated scan lines are a permutation of the input
  have hpart1 : ((ConvertAndSortScanLines az m N
      input).pclCurrentFrameByScan.flatten).Perm input := by
    have h1 : ((List.range N).map fun b =>
        (scanBucket az m input b).map Prod.snd).flatten =
        (((List.range N).map (scanBucket az m input)).flatten).map Prod.snd := by
      rw [List.map_flatten, List.map_map]
      rfl
    show (((List.range N).map fun b =>
      (scanBucket az m input b).map Prod.snd).flatten).Perm input
    rw [h1]
    have := hperm.map Prod.snd
    rwa [List.enumFrom_map_snd] at this
  -- part 2: the concatenated inverse mapping is a permutation of the indices
  have hpart2 : ((ConvertAndSortScanLines az m N
      input).FromPCLtoVTKMapping.flatten).Perm (List.range input.length) := by
    have h1 : ((List.range N).map fun b =>
        (scanBucket az m input b).map Prod.fst).flatten =
        (((List.range N).map (scanBucket az m input)).flatten).map Prod.fst := by
      rw [List.map_flatten, List.map_map]
      rfl
    show (((List.range N).map fun b =>
      (scanBucket az m input b).map Prod.fst).flatten).Perm (List.range input.length)
    rw [h1]
    have := hperm.map Prod.fst
    rwa [List.enumFrom_map_fst, ← List.range_eq_range'] at this
  -- decode the forward address
  have hget : (List.enumFrom 0 input)[i]? = some (i, input[i]) := by
    rw [List.getElem?_enumFrom, List.getElem?_eq_getElem hi]
    simp
  have haddr' : (ConvertAndSortScanLines az m N
      input).FromVTKtoPCLMapping.getD i (0, 0) =
      (beamIndexOf m input[i],
       ((scanBucket az m input (beamIndexOf m input[i])).map
         Prod.fst).indexOf i) := by
    simp only [ConvertAndSortScanLines]
    rw [List.getD_eq_getElem?_getD, List.getElem?_map, hget]
    rfl
  have heq : (b, pos) =
      (beamIndexOf m input[i],
       ((scanBucket az m input (beamIndexOf m input[i])).map
         Prod.fst).indexOf i) := haddr.symm.trans haddr'
  have hb : b = beamIndexOf m input[i] := congrArg Prod.fst heq
  have hpos : pos = ((scanBucket az m input (beamIndexOf m input[i])).map
      Prod.fst).indexOf i := congrArg Prod.snd heq
  subst hb
  subst hpos
  set B := scanBucket az m input (beamIndexOf m input[i]) with hBdef
  set pos0 := (B.map Prod.fst).indexOf i with hposdef
  have hbN : beamIndexOf m input[i] < N := hbeam input[i] (List.getElem_mem hi)
  -- membership of the enumerated input point in its bucket
  have hmem0 : (i, input[i]) ∈ List.enumFrom 0 input := List.getElem?_mem hget
  have hmemf : (i, input[i]) ∈ (List.enumFrom 0 input).filter
      (fun e => beamIndexOf m e.2 == beamIndexOf m input[i]) :=
    List.mem_filter.mpr ⟨hmem0, by simp⟩
  have hmemB : (i, input[i]) ∈ B := ((sortByKey_perm _ _).mem_iff).mpr hmemf
  have hmemfst : i ∈ B.map Prod.fst := List.mem_map_of_mem Prod.fst hmemB
  have hlt : pos0 < (B.map Prod.fst).length := List.indexOf_lt_length.mpr hmemfst
  have hltB : pos0 < B.length := by simpa using hlt
  have hfstval : (B.map Prod.fst)[pos0] = i := by
    have h3 := List.indexOf_get (a := i) (l := B.map Prod.fst) hlt
    rw [List.get_eq_getElem] at h3
    exact h3
  have hentry_fst : (B[pos0]).1 = i := by
    simp only [List.getElem_map] at hfstval
    exact hfstval
  have hmemE : ∀ e, e ∈ B → e ∈ List.enumFrom 0 input := by
    intro e he
    have h2 := ((sortByKey_perm
      (fun x : ℕ × SlamPoint => az x.2)
      ((List.enumFrom 0 input).filter fun x =>
        beamIndexOf m x.2 == beamIndexOf m input[i])).mem_iff).mp
      (by simpa [hBdef, scanBucket] using he)
    exact (List.mem_filter.mp h2).1
  have hentry_snd : (B[pos0]).2 = input[i] := by
    rcases hsplit : B[pos0] with ⟨j, p⟩
    rw [hsplit] at hentry_fst
    have hentry_mem : (j, p) ∈ List.enumFrom 0 input :=
      hsplit ▸ hmemE _ (List.getElem_mem hltB)
    obtain ⟨-, -, hvp⟩ := List.mem_enumFrom hentry_mem
    simp only at hentry_fst
    subst hentry_fst
    simpa using hvp
  -- the scan line and inverse mapping rows at the decoded address
  have hline : ((ConvertAndSortScanLines az m N
      input).pclCurrentFrameByScan).getD (beamIndexOf m input[i]) [] =
      B.map Prod.snd := by
    show (((List.range N).map fun b => (scanBucket az m input b).map
      Prod.snd).getD (beamIndexOf m input[i]) []) = B.map Prod.snd
    exact getD_map_range _ N _ hbN []
  have hrow : ((ConvertAndSortScanLines az m N
      input).FromPCLtoVTKMapping).getD (beamIndexOf m input[i]) [] =
      B.map Prod.fst := by
    show (((List.range N).map fun b => (scanBucket az m input b).map
      Prod.fst).getD (beamIndexOf m input[i]) []) = B.map Prod.fst
    exact getD_map_range _ N _ hbN []
  refine ⟨hpart1, hpart2, hbN, ?_, ?_, ?_⟩
  · rw [hline, List.length_map]
    exact hltB
  · rw [hline]
    have hlt2 : pos0 < (B.map Prod.snd).length := by simpa using hltB
    rw [List.getD_eq_getElem _ _ hlt2, List.getElem_map,
      List.getD_eq_getElem _ _ hi]
    exact hentry_snd
  · rw [hrow, List.getD_eq_getElem _ _ hlt]
    exact hfstval

/-- Witness for C2: a concrete three-point frame organized into two scan
lines, with the azimuth key reading off the x coordinate; the point at
input index 0 lands at scan-line address (1, 1). -/
theorem ConvertAndSortScanLines_spec_witness :
    ((ConvertAndSortScanLines azX [1, 0] 2 witFrame).pclCurrentFrameByScan.flatten).Perm
      witFrame ∧
    ((ConvertAndSortScanLines azX [1, 0] 2 witFrame).FromPCLtoVTKMapping.flatten).Perm
      (List.range witFrame.length) ∧
    1 < 2 ∧
    1 < (((ConvertAndSortScanLines azX [1, 0] 2
      witFrame).pclCurrentFrameByScan).getD 1 []).length ∧
    (((ConvertAndSortScanLines azX [1, 0] 2 witFrame).pclCurrentFrameByScan).getD
        1 []).getD 1 default = witFrame.getD 0 default ∧
    (((ConvertAndSortScanLines azX [1, 0] 2 witFrame).FromPCLtoVTKMapping).getD
        1 []).getD 1 0 = 0 :=
  ConvertAndSortScanLines_spec azX [1, 0] 2 witFrame 0 1 1
    (by decide) (by decide) (by decide)

/-! ## Curvature analyzer (§4.B, `ComputeCurvature`) -/

/-- Sum of a list of 3-vectors. -/
def vsum : List V3 → V3
  | [] => V3.zero
  | a :: l => V3.add a (vsum l)

/-- Position of a point. -/
def SlamPoint.pos (p : SlamPoint) : V3 := ⟨p.x, p.y, p.z⟩

/-- Indices of the symmetric neighborhood `[i−W, i+W]` of width `W` around
position `i` in a scan line. -/
def neighborhoodIdx (W i : ℕ) : List ℕ :=
  (List.range (2 * W + 1)).map fun j => i - W + j

/-- Mean of the neighborhood positions (spec §3: "the mean of a symmetric
neighborhood of width W"). -/
def meanOfNeighborhood (W : ℕ) (line : List V3) (i : ℕ) : V3 :=
  V3.smul (1 / (2 * W + 1 : ℚ))
    (vsum ((neighborhoodIdx W i).map fun k => line.getD k V3.zero))

/-- The §3 reading of the curvature: the sum of the squared differences of
each coordinate of `p_i` to the neighborhood mean. -/
def meanSqDiff (W : ℕ) (line : List V3) (i : ℕ) : ℚ :=
  (V3.sub (line.getD i V3.zero) (meanOfNeighborhood W line i)).sqNorm

/-- The §4.B curvature value at a position with a full neighborhood:
`‖Σ_{k≠i} (p_i − p_k)‖²` (LOAM's curvature proxy). -/
def curvatureAt (W : ℕ) (line : List V3) (i : ℕ) : ℚ :=
  (vsum (((neighborhoodIdx W i).filter fun k => k ≠ i).map
    fun k => V3.sub (line.getD i V3.zero) (line.getD k V3.zero))).sqNorm

/-- The per-line outputs of the curvature analyzer: the curvature scores
and the validity flags (members `Curvature` and `IsPointValid` of
`vtkSlam`, vtkSlam.h lines 282-287). -/
structure CurvatureData where
  Curvature : List ℚ
  IsPointValid : List Bool

/-- Modelled from the spec: vtkSlam.cxx is absent.  `ComputeCurvature`
(vtkSlam.h lines 387-391) computes, per scan line, the curvature
`‖Σ_{k≠i} (p_i − p_k)‖²` over the symmetric neighborhood `[i−W, i+W]`
for every position whose neighborhood lies fully inside the line, and
marks the edge-of-line positions (without a full neighborhood) invalid
(spec §4.B). -/
def ComputeCurvature (W : ℕ) (line : List V3) : CurvatureData where
  Curvature := (List.range line.length).map fun i =>
    if W ≤ i ∧ i + W < line.length then curvatureAt W line i else 0
  IsPointValid := (List.range line.length).map fun i =>
    decide (W ≤ i ∧ i + W < line.length)

theorem vsum_map_sub_const (l : List ℕ) (f : ℕ → V3) (v : V3) :
    vsum (l.map fun k => V3.sub v (f k)) =
      V3.sub (V3.smul (l.length : ℚ) v) (vsum (l.map f)) := by
  induction l with
  | nil => simp [vsum, V3.sub, V3.smul, V3.zero]
  | cons a t ih =>
    simp only [List.map_cons, vsum, List.length_cons]
    rw [ih]
    simp only [V3.add, V3.sub, V3.smul, V3.mk.injEq]
    refine ⟨?_, ?_, ?_⟩ <;> push_cast <;> ring

theorem vsum_map_filter_of_zero (l : List ℕ) (q : ℕ → Bool) (f : ℕ → V3)
    (h : ∀ k ∈ l, q k = false → f k = V3.zero) :
    vsum ((l.filter q).map f) = vsum (l.map f) := by
  induction l with
  | nil => rfl
  | cons a t ih =>
    rw [List.filter_cons]
    by_cases hq : q a
    · rw [if_pos hq]
      simp only [List.map_cons, vsum]
      rw [ih fun k hk hk2 => h k (List.mem_cons_of_mem _ hk) hk2]
    · rw [if_neg hq, List.map_cons, vsum]
      rw [ih fun k hk hk2 => h k (List.mem_cons_of_mem _ hk) hk2]
      rw [h a (List.mem_cons_self a t) (by simpa using hq)]
      rcases vsum (t.map f) with ⟨vx, vy, vz⟩
      simp [V3.add, V3.zero]

theorem smul_sub_sqNorm (c : ℚ) (hc : c ≠ 0) (v s : V3) :
    (V3.sub (V3.smul c v) s).sqNorm =
      c ^ 2 * (V3.sub v (V3.smul (1 / c) s)).sqNorm := by
  rcases v with ⟨vx, vy, vz⟩
  rcases s with ⟨sx, sy, sz⟩
  simp only [V3.sub, V3.smul, V3.sqNorm]
  field_simp
  ring

/-- C7 (amended): for a position `i` whose symmetric neighborhood
`[i−W, i+W]` lies fully inside the line, `ComputeCurvature` stores
`curvature[i] = ‖Σ_{k≠i} (p_i − p_k)‖²`, which equals `(2W+1)²` times —
i.e. is proportional to, not equal to — the §3 sum of squared coordinate
differences to the neighborhood mean; position `i` is marked valid while
any position `j` without a full neighborhood is marked invalid. -/
theorem ComputeCurvature_spec (W : ℕ) (line : List V3) (i j : ℕ)
    (h1 : W ≤ i) (h2 : i + W < line.length)
    (hj1 : j < line.length) (hj2 : ¬(W ≤ j ∧ j + W < line.length)) :
    (ComputeCurvature W line).Curvature.getD i 0 = curvatureAt W line i ∧
    (ComputeCurvature W line).Curvature.getD i 0 =
      (2 * (W : ℚ) + 1) ^ 2 * meanSqDiff W line i ∧
    (ComputeCurvature W line).IsPointValid.getD i false = true ∧
    (ComputeCurvature W line).IsPointValid.getD j false = false := by
  have hilen : i < line.length := lt_of_le_of_lt (Nat.le_add_right i W) h2
  have hC : (ComputeCurvature W line).Curvature.getD i 0 =
      curvatureAt W line i := by
    show ((List.range line.length).map fun i =>
      if W ≤ i ∧ i + W < line.length then curvatureAt W line i else 0).getD
        i 0 = _
    rw [getD_map_range _ _ _ hilen, if_pos ⟨h1, h2⟩]
  have hmain : curvatureAt W line i =
      (2 * (W : ℚ) + 1) ^ 2 * meanSqDiff W line i := by
    unfold curvatureAt meanSqDiff meanOfNeighborhood
    rw [vsum_map_filter_of_zero _ _ _ (by
      intro k _ hkf
      have hk : k = i := by simpa using hkf
      subst hk
      simp [V3.sub, V3.zero])]
    rw [vsum_map_sub_const]
    have hlen : (neighborhoodIdx W i).length = 2 * W + 1 := by
      simp [neighborhoodIdx]
    rw [hlen]
    have hc : ((2 * W + 1 : ℕ) : ℚ) ≠ 0 := by positivity
    rw [smul_sub_sqNorm _ hc]
    push_cast
    ring_nf
  refine ⟨hC, hC.trans hmain, ?_, ?_⟩
  · show ((List.range line.length).map fun i =>
      decide (W ≤ i ∧ i + W < line.length)).getD i false = true
    rw [getD_map_range _ _ _ hilen]
    simpa using ⟨h1, h2⟩
  · show ((List.range line.length).map fun i =>
      decide (W ≤ i ∧ i + W < line.length)).getD j false = false
    rw [getD_map_range _ _ _ hj1]
    simpa using hj2

/-- Counterexample for C7 as stated: at `W = 1` on the concrete scan line
`[(0,0,0), (1,0,0), (0,0,0)]` the stored curvature at position 1 is 4,
while the §3 mean-difference form gives 4/9, so the two formulas the claim
equates are different. -/
theorem ComputeCurvature_meanform_cex :
    (ComputeCurvature 1 [⟨0, 0, 0⟩, ⟨1, 0, 0⟩, ⟨0, 0, 0⟩]).Curvature.getD 1 0
      = 4 ∧
    meanSqDiff 1 [⟨0, 0, 0⟩, ⟨1, 0, 0⟩, ⟨0, 0, 0⟩] 1 = 4 / 9 ∧
    (ComputeCurvature 1 [⟨0, 0, 0⟩, ⟨1, 0, 0⟩, ⟨0, 0, 0⟩]).Curvature.getD 1 0
      ≠ meanSqDiff 1 [⟨0, 0, 0⟩, ⟨1, 0, 0⟩, ⟨0, 0, 0⟩] 1 := by
  have hc : (ComputeCurvature 1
      [⟨0, 0, 0⟩, ⟨1, 0, 0⟩, ⟨0, 0, 0⟩]).Curvature.getD 1 0 = 4 := by
    norm_num [ComputeCurvature, curvatureAt, neighborhoodIdx, vsum,
      V3.add, V3.sub, V3.zero, V3.sqNorm, List.range_succ]
  have hm : meanSqDiff 1 [⟨0, 0, 0⟩, ⟨1, 0, 0⟩, ⟨0, 0, 0⟩] 1 = 4 / 9 := by
    norm_num [meanSqDiff, meanOfNeighborhood, neighborhoodIdx, vsum,
      V3.add, V3.sub, V3.smul, V3.zero, V3.sqNorm, List.range_succ]
  refine ⟨hc, hm, ?_⟩
  rw [hc, hm]
  norm_num

/-- Witness for C7 on the concrete scan line `[(0,0,0), (1,0,0), (0,0,0)]`
with `W = 1`, interior position 1 and edge position 0. -/
theorem ComputeCurvature_spec_witness :
    (ComputeCurvature 1 [⟨0, 0, 0⟩, ⟨1, 0, 0⟩, ⟨0, 0, 0⟩]).Curvature.getD 1 0
      = curvatureAt 1 [⟨0, 0, 0⟩, ⟨1, 0, 0⟩, ⟨0, 0, 0⟩] 1 ∧
    (ComputeCurvature 1 [⟨0, 0, 0⟩, ⟨1, 0, 0⟩, ⟨0, 0, 0⟩]).Curvature.getD 1 0
      = (2 * (1 : ℚ) + 1) ^ 2 * meanSqDiff 1 [⟨0, 0, 0⟩, ⟨1, 0, 0⟩, ⟨0, 0, 0⟩] 1 ∧
    (ComputeCurvature 1
      [⟨0, 0, 0⟩, ⟨1, 0, 0⟩, ⟨0, 0, 0⟩]).IsPointValid.getD 1 false = true ∧
    (ComputeCurvature 1
      [⟨0, 0, 0⟩, ⟨1, 0, 0⟩, ⟨0, 0, 0⟩]).IsPointValid.getD 0 false = false :=
  ComputeCurvature_spec 1 [⟨0, 0, 0⟩, ⟨1, 0, 0⟩, ⟨0, 0, 0⟩] 1 0
    (by decide) (by decide) (by decide) (by decide)

/-! ## Keypoint selector (§4.C, `SetKeyPointsLabels`) -/

/-- A per-point candidate record for keypoint selection: position in the
scan line, curvature score, and whether the validity filter marked the
point Rejected. -/
structure Cand where
  index : ℕ
  curv : ℚ
  rejected : Bool
deriving DecidableEq

/-- Accumulator of a selection pass: the picked keypoints and the indices
made ineligible (neighbors of already-picked keypoints). -/
structure SelAcc where
  picked : List Cand
  blocked : List ℕ
deriving DecidableEq

/-- Indices blocked around a picked keypoint: its neighborhood of
half-width `W` (spec §4.C: neighbors of a labeled point become
ineligible so keypoints are spatially spread). -/
def blockNeighbors (W idx : ℕ) : List ℕ :=
  (List.range (2 * W + 1)).map fun j => idx - W + j

/-- One greedy selection pass over curvature-sorted candidates: a point is
picked when it is not Rejected, its curvature passes `cond`, the per-line
quota `maxN` is not reached, and it is not blocked; picking a point blocks
its neighborhood. -/
def pickPass (maxN W : ℕ) (cond : ℚ → Bool) : List Cand → SelAcc → SelAcc
  | [], acc => acc
  | c :: rest, acc =>
    if !c.rejected && cond c.curv && decide (acc.picked.length < maxN) &&
        !(acc.blocked.contains c.index) then
      pickPass maxN W cond rest
        ⟨acc.picked ++ [c], acc.blocked ++ blockNeighbors W c.index⟩
    else
      pickPass maxN W cond rest acc

/-- Modelled from the spec: vtkSlam.cxx is absent.  `SetKeyPointsLabels`
(vtkSlam.h lines 400-401) sorts each scan line's candidates by curvature,
picks up to `MaxEdgePerScanLine` points with curvature ≥
`EdgeCurvatureThreshold` as Edge and up to `MaxPlanarsPerScanLine` points
with curvature ≤ `PlaneCurvatureThreshold` as Planar, skipping Rejected
and blocked points and blocking the neighborhood of each pick (§4.C). -/
def SetKeyPointsLabels (W maxE maxP : ℕ) (eTh pTh : ℚ)
    (cands : List Cand) : List Cand × List Cand :=
  let eAcc := pickPass maxE W (fun q => eTh ≤ q)
    (sortByKey (fun c => -c.curv) cands) ⟨[], []⟩
  let pAcc := pickPass maxP W (fun q => q ≤ pTh)
    (sortByKey (fun c => c.curv) cands) ⟨[], eAcc.blocked⟩
  (eAcc.picked, pAcc.picked)

theorem pickPass_invariant (maxN W : ℕ) (cond : ℚ → Bool) (l : List Cand)
    (acc : SelAcc) (hlen : acc.picked.length ≤ maxN)
    (hmem : ∀ c ∈ acc.picked, cond c.curv = true ∧ c.rejected = false) :
    (pickPass maxN W cond l acc).picked.length ≤ maxN ∧
    ∀ c ∈ (pickPass maxN W cond l acc).picked,
      cond c.curv = true ∧ c.rejected = false := by
  induction l generalizing acc with
  | nil => exact ⟨hlen, hmem⟩
  | cons c rest ih =>
    rw [pickPass]
    by_cases hc : (!c.rejected && cond c.curv &&
        decide (acc.picked.length < maxN) &&
        !(acc.blocked.contains c.index)) = true
    · rw [if_pos hc]
      simp only [Bool.and_eq_true, Bool.not_eq_true', decide_eq_true_eq] at hc
      obtain ⟨⟨⟨hrej, hcond⟩, hlt⟩, -⟩ := hc
      apply ih
      · simp only [List.length_append, List.length_cons, List.length_nil]
        omega
      · intro d hd
        rcases List.mem_append.mp hd with h | h
        · exact hmem d h
        · have hdc : d = c := by simpa using h
          subst hdc
          exact ⟨hcond, hrej⟩
    · rw [if_neg hc]
      exact ih acc hlen hmem

/-- C9: per scan line the selector labels at most `MaxEdgePerScanLine`
points as Edge, each with curvature ≥ `EdgeCurvatureThreshold`, and at
most `MaxPlanarsPerScanLine` points as Planar, each with curvature ≤
`PlaneCurvatureThreshold`; Rejected points are never selected (shown for
arbitrary members `c` of the Edge list and `d` of the Planar list). -/
theorem SetKeyPointsLabels_spec (W maxE maxP : ℕ) (eTh pTh : ℚ)
    (cands : List Cand) (c d : Cand)
    (hc : c ∈ (SetKeyPointsLabels W maxE maxP eTh pTh cands).1)
    (hd : d ∈ (SetKeyPointsLabels W maxE maxP eTh pTh cands).2) :
    (SetKeyPointsLabels W maxE maxP eTh pTh cands).1.length ≤ maxE ∧
    (SetKeyPointsLabels W maxE maxP eTh pTh cands).2.length ≤ maxP ∧
    eTh ≤ c.curv ∧ c.rejected = false ∧
    d.curv ≤ pTh ∧ d.rejected = false := by
  simp only [SetKeyPointsLabels] at hc hd ⊢
  have hE := pickPass_invariant maxE W (fun q => eTh ≤ q)
    (sortByKey (fun c => -c.curv) cands) ⟨[], []⟩
    (by simp) (by simp)
  have hP := pickPass_invariant maxP W (fun q => q ≤ pTh)
    (sortByKey (fun c => c.curv) cands)
    ⟨[], (pickPass maxE W (fun q => eTh ≤ q)
      (sortByKey (fun c => -c.curv) cands) ⟨[], []⟩).blocked⟩
    (by simp) (by simp)
  obtain ⟨hcc, hcr⟩ := hE.2 c hc
  obtain ⟨hdc, hdr⟩ := hP.2 d hd
  exact ⟨hE.1, hP.1, by simpa using hcc, hcr, by simpa using hdc, hdr⟩

/-- Witness for C9 on two concrete candidates with quotas 1/1, edge
threshold 3 and plane threshold 1: the point with curvature 5 is picked as
Edge, the point with curvature 0 as Planar. -/
theorem SetKeyPointsLabels_spec_witness :
    (SetKeyPointsLabels 0 1 1 3 1
      [⟨0, 5, false⟩, ⟨1, 0, false⟩]).1.length ≤ 1 ∧
    (SetKeyPointsLabels 0 1 1 3 1
      [⟨0, 5, false⟩, ⟨1, 0, false⟩]).2.length ≤ 1 ∧
    (3 : ℚ) ≤ (Cand.mk 0 5 false).curv ∧ (Cand.mk 0 5 false).rejected = false ∧
    (Cand.mk 1 0 false).curv ≤ 1 ∧ (Cand.mk 1 0 false).rejected = false :=
  SetKeyPointsLabels_spec 0 1 1 3 1 [⟨0, 5, false⟩, ⟨1, 0, false⟩]
    ⟨0, 5, false⟩ ⟨1, 0, false⟩ (by decide) (by decide)

/-! ## Rolling voxel grid (§4.I, class `RollingGrid`, vtkSlam.h lines 273-275) -/

/-- Continuous voxel index of a position: floor of each coordinate over
the voxel side. -/
def voxelFloor (L : ℚ) (p : V3) : ℤ × ℤ × ℤ :=
  (⌊p.x / L⌋, ⌊p.y / L⌋, ⌊p.z / L⌋)

/-- Modelled from the spec: the `RollingGrid` class is only forward
declared in vtkSlam.h (line 103) and its implementation is absent.  A
fixed-capacity toroidal voxel array of dimensions `Gx×Gy×Gz` with voxel
side `L_vox`, addressed modulo the dimensions, holding the accumulated
map points; `origin` is the voxel index of the window's low corner
(§3, §4.I).  Stored points are tagged with their bucket `(i,j,k)`. -/
structure RollingGrid where
  VoxelSize : ℚ
  NbVoxelX : ℕ
  NbVoxelY : ℕ
  NbVoxelZ : ℕ
  originX : ℤ
  originY : ℤ
  originZ : ℤ
  cells : List ((ℕ × ℕ × ℕ) × V3)
deriving DecidableEq

/-- Whether a continuous voxel index lies inside the grid's current
window of `Gx×Gy×Gz` voxels starting at `origin`. -/
def RollingGrid.inWindow (g : RollingGrid) (v : ℤ × ℤ × ℤ) : Prop :=
  g.originX ≤ v.1 ∧ v.1 < g.originX + g.NbVoxelX ∧
  g.originY ≤ v.2.1 ∧ v.2.1 < g.originY + g.NbVoxelY ∧
  g.originZ ≤ v.2.2 ∧ v.2.2 < g.originZ + g.NbVoxelZ

instance (g : RollingGrid) (v : ℤ × ℤ × ℤ) : Decidable (g.inWindow v) := by
  unfold RollingGrid.inWindow
  infer_instance

/-- Bucket (storage) index of a continuous voxel index: each coordinate
reduced modulo the grid dimension (the toroidal addressing of §4.I). -/
def RollingGrid.bucketOf (g : RollingGrid) (v : ℤ × ℤ × ℤ) : ℕ × ℕ × ℕ :=
  ((v.1 % (g.NbVoxelX : ℤ)).toNat,
   (v.2.1 % (g.NbVoxelY : ℤ)).toNat,
   (v.2.2 % (g.NbVoxelZ : ℤ)).toNat)

/-- Modelled from the spec: `Insert(point)` computes the voxel index
`(⌊x/L⌋ mod Gx, …)` and appends the point to that voxel's bucket
(§4.I); points outside the current window are not stored (the window
invariant of §3/§4.I).  The in-voxel downsampler merges coincident
points within the same voxel and is not modelled (it does not move
points across voxels). -/
def RollingGrid.insert (g : RollingGrid) (p : V3) : RollingGrid :=
  if g.inWindow (voxelFloor g.VoxelSize p) then
    { g with cells := (g.bucketOf (voxelFloor g.VoxelSize p), p) :: g.cells }
  else g

/-- The window's low-corner x index when anchored near a center `c`:
the center's voxel minus half the grid dimension. -/
def RollingGrid.anchorX (g : RollingGrid) (c : V3) : ℤ :=
  ⌊c.x / g.VoxelSize⌋ - (g.NbVoxelX / 2 : ℕ)

def RollingGrid.anchorY (g : RollingGrid) (c : V3) : ℤ :=
  ⌊c.y / g.VoxelSize⌋ - (g.NbVoxelY / 2 : ℕ)

def RollingGrid.anchorZ (g : RollingGrid) (c : V3) : ℤ :=
  ⌊c.z / g.VoxelSize⌋ - (g.NbVoxelZ / 2 : ℕ)

/-- Modelled from the spec: `Shift(center)` re-anchors the window on the
sensor position and evicts (permanently) everything that leaves the
window (§4.I). -/
def RollingGrid.shift (g : RollingGrid) (c : V3) : RollingGrid :=
  let g2 := { g with originX := g.anchorX c, originY := g.anchorY c,
                     originZ := g.anchorZ c }
  { g2 with cells := g2.cells.filter fun e =>
      decide (g2.inWindow (voxelFloor g2.VoxelSize e.2)) }

/-- Modelled from the spec: `Submap(center, half_extent_voxels)` returns
the stored points inside the bounding box of `half` voxels on each side
of `center`, without mutating the grid (§4.I, §4.H step 2). -/
def RollingGrid.submap (g : RollingGrid) (c : V3) (half : ℕ) : List V3 :=
  (g.cells.filter fun e =>
    decide (|e.2.x - c.x| ≤ (half : ℚ) * g.VoxelSize) &&
    decide (|e.2.y - c.y| ≤ (half : ℚ) * g.VoxelSize) &&
    decide (|e.2.z - c.z| ≤ (half : ℚ) * g.VoxelSize)).map Prod.snd

/-- The rolling-grid invariant (§4.I): every stored point's continuous
voxel index is congruent to its bucket modulo the grid dimensions, and
lies inside the current window. -/
def RollingGrid.wf (g : RollingGrid) : Prop :=
  ∀ e ∈ g.cells,
    e.1 = g.bucketOf (voxelFloor g.VoxelSize e.2) ∧
    g.inWindow (voxelFloor g.VoxelSize e.2)

/-- Continuous-coordinate window bound: every stored point is within
`(G/2 + 1)·L_vox` of the center on each axis (the voxel-aligned window
of side `G·L_vox` contains the center but is centered on it only up to
one voxel). -/
def RollingGrid.nearCenter (g : RollingGrid) (c : V3) : Prop :=
  ∀ e ∈ g.cells,
    |e.2.x - c.x| < ((g.NbVoxelX / 2 : ℕ) + 1 : ℚ) * g.VoxelSize ∧
    |e.2.y - c.y| < ((g.NbVoxelY / 2 : ℕ) + 1 : ℚ) * g.VoxelSize ∧
    |e.2.z - c.z| < ((g.NbVoxelZ / 2 : ℕ) + 1 : ℚ) * g.VoxelSize

theorem axis_near (L cx px : ℚ) (G : ℕ) (hL : 0 < L)
    (hlow : (⌊cx / L⌋ - (G / 2 : ℕ) : ℤ) ≤ ⌊px / L⌋)
    (hhigh : ⌊px / L⌋ < ⌊cx / L⌋ - (G / 2 : ℕ) + G) :
    |px - cx| < ((G / 2 : ℕ) + 1 : ℚ) * L := by
  have h1 : ((⌊cx / L⌋ - (G / 2 : ℕ) : ℤ) : ℚ) ≤ px / L :=
    le_trans (by exact_mod_cast hlow) (Int.floor_le _)
  have h2 : px / L < ((⌊cx / L⌋ - (G / 2 : ℕ) + G : ℤ) : ℚ) :=
    Int.floor_lt.mp hhigh
  have h3 : ((⌊cx / L⌋ : ℤ) : ℚ) ≤ cx / L := Int.floor_le _
  have h4 : cx / L < ((⌊cx / L⌋ : ℤ) : ℚ) + 1 := Int.lt_floor_add_one _
  have hp1 : ((⌊cx / L⌋ - (G / 2 : ℕ) : ℤ) : ℚ) * L ≤ px := (le_div_iff₀ hL).mp h1
  have hp2 : px < ((⌊cx / L⌋ - (G / 2 : ℕ) + G : ℤ) : ℚ) * L := (div_lt_iff₀ hL).mp h2
  have hp3 : ((⌊cx / L⌋ : ℤ) : ℚ) * L ≤ cx := (le_div_iff₀ hL).mp h3
  have hp4 : cx < (((⌊cx / L⌋ : ℤ) : ℚ) + 1) * L := (div_lt_iff₀ hL).mp h4
  have hnat : G ≤ 2 * (G / 2) + 1 := by omega
  have hG : ((G : ℚ) - ((G / 2 : ℕ) : ℚ)) ≤ ((G / 2 : ℕ) : ℚ) + 1 := by
    have h5 : (G : ℚ) ≤ 2 * ((G / 2 : ℕ) : ℚ) + 1 := by exact_mod_cast hnat
    linarith
  have hGL : ((G : ℚ) - ((G / 2 : ℕ) : ℚ)) * L ≤ (((G / 2 : ℕ) : ℚ) + 1) * L :=
    mul_le_mul_of_nonneg_right hG hL.le
  rw [abs_sub_lt_iff]
  push_cast at hp1 hp2 hp3 hp4 hGL ⊢
  have hcast : (((G : ℤ) / 2 : ℤ) : ℚ) = ((G / 2 : ℕ) : ℚ) := by norm_cast
  rw [hcast] at hp1 hp2
  constructor
  · nlinarith [hp2, hp3, hGL]
  · nlinarith [hp1, hp4]

/-- Insertion preserves the rolling-grid invariant. -/
theorem RollingGrid.insert_wf (g : RollingGrid) (p : V3) (h : g.wf) :
    (g.insert p).wf := by
  unfold RollingGrid.insert
  split
  · intro e he
    rcases List.mem_cons.mp he with rfl | hmem
    · exact ⟨rfl, by assumption⟩
    · exact h e hmem
  · exact h

theorem RollingGrid.insert_fields (g : RollingGrid) (p : V3) :
    (g.insert p).VoxelSize = g.VoxelSize ∧
    (g.insert p).NbVoxelX = g.NbVoxelX ∧
    (g.insert p).NbVoxelY = g.NbVoxelY ∧
    (g.insert p).NbVoxelZ = g.NbVoxelZ ∧
    (g.insert p).originX = g.originX ∧
    (g.insert p).originY = g.originY ∧
    (g.insert p).originZ = g.originZ := by
  unfold RollingGrid.insert
  split <;> exact ⟨rfl, rfl, rfl, rfl, rfl, rfl, rfl⟩

/-- Shifting establishes the invariant and anchors the window's origin on
the new center. -/
theorem RollingGrid.shift_wf (g : RollingGrid) (c : V3) (h : g.wf) :
    (g.shift c).wf ∧
    (g.shift c).originX = g.anchorX c ∧
    (g.shift c).originY = g.anchorY c ∧
    (g.shift c).originZ = g.anchorZ c := by
  refine ⟨?_, rfl, rfl, rfl⟩
  intro e he
  unfold RollingGrid.shift at he
  simp only [List.mem_filter, decide_eq_true_eq] at he
  exact ⟨(h e he.1).1, he.2⟩

theorem foldl_insert_wf (l : List V3) (g : RollingGrid) (h : g.wf) :
    (l.foldl RollingGrid.insert g).wf := by
  induction l generalizing g with
  | nil => exact h
  | cons p t ih => exact ih _ (g.insert_wf p h)

theorem foldl_insert_fields (l : List V3) (g : RollingGrid) :
    (l.foldl RollingGrid.insert g).VoxelSize = g.VoxelSize ∧
    (l.foldl RollingGrid.insert g).NbVoxelX = g.NbVoxelX ∧
    (l.foldl RollingGrid.insert g).NbVoxelY = g.NbVoxelY ∧
    (l.foldl RollingGrid.insert g).NbVoxelZ = g.NbVoxelZ ∧
    (l.foldl RollingGrid.insert g).originX = g.originX ∧
    (l.foldl RollingGrid.insert g).originY = g.originY ∧
    (l.foldl RollingGrid.insert g).originZ = g.originZ := by
  induction l generalizing g with
  | nil => exact ⟨rfl, rfl, rfl, rfl, rfl, rfl, rfl⟩
  | cons p t ih =>
    obtain ⟨h1, h2, h3, h4, h5, h6, h7⟩ := ih (g.insert p)
    obtain ⟨k1, k2, k3, k4, k5, k6, k7⟩ := g.insert_fields p
    exact ⟨h1.trans k1, h2.trans k2, h3.trans k3, h4.trans k4,
      h5.trans k5, h6.trans k6, h7.trans k7⟩

/-- The invariant plus an anchored origin gives the continuous window
bound: every stored point is within one voxel of the centered cube. -/
theorem RollingGrid.wf_nearCenter (g : RollingGrid) (c : V3)
    (hL : 0 < g.VoxelSize)
    (hax : g.originX = g.anchorX c) (hay : g.originY = g.anchorY c)
    (haz : g.originZ = g.anchorZ c) (hwf : g.wf) : g.nearCenter c := by
  intro e he
  obtain ⟨-, hw⟩ := hwf e he
  unfold RollingGrid.inWindow at hw
  rw [hax, hay, haz] at hw
  unfold RollingGrid.anchorX RollingGrid.anchorY RollingGrid.anchorZ at hw
  obtain ⟨w1, w2, w3, w4, w5, w6⟩ := hw
  unfold voxelFloor at w1 w2 w3 w4 w5 w6
  exact ⟨axis_near _ _ _ _ hL w1 (by exact_mod_cast w2),
    axis_near _ _ _ _ hL w3 (by exact_mod_cast w4),
    axis_near _ _ _ _ hL w5 (by exact_mod_cast w6)⟩

/-! ## Poses and the SLAM engine state (`vtkSlam`) -/

/-- A rigid transform: rotation and translation.  The source stores poses
as 6-vectors `(rx,ry,rz,tx,ty,tz)` (`Trelative`, `Tworld`, vtkSlam.h
lines 370-374); the Euler-angle-to-matrix map is transcendental, so the
pose is embedded directly as its rotation matrix and translation, on
which the spec's composition of rigid transforms acts. -/
structure Pose where
  R : M3
  t : V3
deriving DecidableEq

/-- Composition of rigid transforms (`⊙` of the spec §3). -/
def Pose.comp (A B : Pose) : Pose :=
  ⟨A.R * B.R, V3.add (A.R.mulVec B.t) A.t⟩

/-- Inverse of a rigid transform with orthogonal rotation. -/
def Pose.inv (A : Pose) : Pose :=
  ⟨A.R.transpose, V3.smul (-1) (A.R.transpose.mulVec A.t)⟩

/-- The identity pose. -/
def Pose.idPose : Pose := ⟨I3, V3.zero⟩

/-- Orthogonality of a rotation matrix. -/
def M3.IsOrtho (R : M3) : Prop := R * R.transpose = I3 ∧ R.transpose * R = I3

instance (R : M3) : Decidable (R.IsOrtho) := by
  unfold M3.IsOrtho
  infer_instance

/-- Composing `A` with `A⁻¹ ⊙ B` gives back `B` when `A`'s rotation is
orthogonal; this is what makes the mapping stage's recomputation
`T_rel = T_world(k−1)⁻¹ ⊙ T_world(k)` (§4.H step 4) consistent with the
composition law. -/
theorem Pose.comp_inv_cancel (A B : Pose) (h : A.R * A.R.transpose = I3) :
    Pose.comp A (Pose.comp (Pose.inv A) B) = B := by
  obtain ⟨R, t⟩ := A
  obtain ⟨S, u⟩ := B
  obtain ⟨r00, r01, r02, r10, r11, r12, r20, r21, r22⟩ := R
  obtain ⟨s00, s01, s02, s10, s11, s12, s20, s21, s22⟩ := S
  obtain ⟨tx, ty, tz⟩ := t
  obtain ⟨ux, uy, uz⟩ := u
  simp only [M3.mul_def, M3.mul, M3.transpose, I3, M3.mk.injEq] at h
  obtain ⟨h00, h01, h02, h10, h11, h12, h20, h21, h22⟩ := h
  simp only [Pose.comp, Pose.inv, M3.mul_def, M3.mul, M3.transpose,
    M3.mulVec, V3.add, V3.smul, Pose.mk.injEq, M3.mk.injEq, V3.mk.injEq]
  refine ⟨⟨?_, ?_, ?_, ?_, ?_, ?_, ?_, ?_, ?_⟩, ?_, ?_, ?_⟩
  · linear_combination s00 * h00 + s10 * h01 + s20 * h02
  · linear_combination s01 * h00 + s11 * h01 + s21 * h02
  · linear_combination s02 * h00 + s12 * h01 + s22 * h02
  · linear_combination s00 * h10 + s10 * h11 + s20 * h12
  · linear_combination s01 * h10 + s11 * h11 + s21 * h12
  · linear_combination s02 * h10 + s12 * h11 + s22 * h12
  · linear_combination s00 * h20 + s10 * h21 + s20 * h22
  · linear_combination s01 * h20 + s11 * h21 + s21 * h22
  · linear_combination s02 * h20 + s12 * h21 + s22 * h22
  · linear_combination (ux - tx) * h00 + (uy - ty) * h01 + (uz - tz) * h02
  · linear_combination (ux - tx) * h10 + (uy - ty) * h11 + (uz - tz) * h12
  · linear_combination (ux - tx) * h20 + (uy - ty) * h21 + (uz - tz) * h22

/-- Outcome of one `AddFrame` call (§7): success, the hard
calibration-missing error, or the flagged excessive-motion failure. -/
inductive SlamStatus where
  | ok
  | calibrationMissing
  | excessiveMotion
deriving DecidableEq

/-- The engine state: the private members of class `vtkSlam`
(vtkSlam.h lines 252-374) that the claims are about — trajectory, frame
counter, sensor calibration, the two poses, the two rolling-grid local
maps, and the macro-accessed configuration scalars. -/
structure vtkSlam where
  Trajectory : List V3
  NbrFrameProcessed : ℕ
  LaserIdMapping : List ℕ
  NLasers : ℕ
  Trelative : Pose
  Tworld : Pose
  EdgesPointsLocalMap : RollingGrid
  PlanarPointsLocalMap : RollingGrid
  DisplayMode : Bool
  MaxDistBetweenTwoFrames : ℚ
  AngleResolution : ℚ
  MaxEdgePerScanLine : ℕ
  MaxPlanarsPerScanLine : ℕ
  MinDistanceToSensor : ℚ
  PlaneCurvatureThreshold : ℚ
  EdgeCurvatureThreshold : ℚ
  EgoMotionMaxIter : ℕ
  EgoMotionIcpFrequence : ℕ
  EgoMotionLineDistanceNbrNeighbors : ℕ
  EgoMotionLineDistancefactor : ℚ
  EgoMotionPlaneDistanceNbrNeighbors : ℕ
  EgoMotionPlaneDistancefactor1 : ℚ
  EgoMotionPlaneDistancefactor2 : ℚ
  EgoMotionMaxLineDistance : ℚ
  EgoMotionMaxPlaneDistance : ℚ
  MappingMaxIter : ℕ
  MappingIcpFrequence : ℕ
  MappingLineDistanceNbrNeighbors : ℕ
  MappingLineDistancefactor : ℚ
  MappingPlaneDistanceNbrNeighbors : ℕ
  MappingPlaneDistancefactor1 : ℚ
  MappingPlaneDistancefactor2 : ℚ
  MappingMaxLineDistance : ℚ
  MappingMaxPlaneDistance : ℚ
  MinPointToLineOrEdgeDistance : ℚ
deriving DecidableEq

/-- Modelled from the spec: whether `SetSensorCalibration` has been called
(vtkSlam.h lines 131-134); the calibration is the laser-id mapping plus
the laser count (§6). -/
def GetIsSensorCalibrationProvided (e : vtkSlam) : Bool :=
  !e.LaserIdMapping.isEmpty

/-- Modelled from the spec: `SetSensorCalibration(mapping, nbLaser)`
stores the laser-id mapping and the number of lasers (vtkSlam.h lines
126-129). -/
def SetSensorCalibration (e : vtkSlam) (mapping : List ℕ) (nbLaser : ℕ) :
    vtkSlam :=
  { e with LaserIdMapping := mapping, NLasers := nbLaser }

/-- Modelled from the spec: `UpdateTworldUsingTrelative` integrates the
relative motion into the previous world transformation (vtkSlam.h lines
480-483): `T_world ← T_world ⊙ T_rel`. -/
def UpdateTworldUsingTrelative (e : vtkSlam) : vtkSlam :=
  { e with Tworld := Pose.comp e.Tworld e.Trelative }

/-- Modelled from the spec: `ResetAlgorithm` erases the map (both local
maps) and all transformations computed so far, the trajectory and the
frame counter (vtkSlam.h lines 121-124, spec §6 `reset()`); the sensor
calibration is retained. -/
def ResetAlgorithm (e : vtkSlam) : vtkSlam :=
  { e with Trajectory := [],
           NbrFrameProcessed := 0,
           Trelative := Pose.idPose,
           Tworld := Pose.idPose,
           EdgesPointsLocalMap := { e.EdgesPointsLocalMap with cells := [] },
           PlanarPointsLocalMap := { e.PlanarPointsLocalMap with cells := [] } }

/-- Modelled from the spec: `AddFrame(newFrame)` (vtkSlam.h lines
115-119, spec §4.G-§4.H, §7).  The numeric Levenberg-Marquardt stages are
not statable, so the ego-motion estimate, the mapping refinement and the
world-frame keypoint extraction are abstracted as the oracle parameters
`egoSolve`, `mapSolve`, `kpE`/`kpP`; the claims hold for every oracle.
The pipeline: calibration guard; ego-motion estimate of `T_rel`; the
excessive-motion guard `‖t_rel‖ > MaxDistBetweenTwoFrames` (squared on
both sides), which on failure skips mapping and map insertion and
advances `T_world` by the previous `T_rel` (constant-velocity
dead-reckoning); otherwise `T_world` is composed with the new `T_rel`
(`UpdateTworldUsingTrelative`), refined by the mapping stage, `T_rel` is
recomputed as `T_world(k−1)⁻¹ ⊙ T_world(k)`, the two local maps are
shifted onto the new pose and the keypoints inserted, and the trajectory
and frame counter are advanced. -/
def AddFrame (egoSolve : vtkSlam → List SlamPoint → Pose)
    (mapSolve : vtkSlam → List SlamPoint → Pose → Pose)
    (kpE kpP : vtkSlam → List SlamPoint → List V3)
    (e : vtkSlam) (frame : List SlamPoint) : SlamStatus × vtkSlam :=
  if GetIsSensorCalibrationProvided e then
    let trel := egoSolve e frame
    if e.MaxDistBetweenTwoFrames ^ 2 < trel.t.sqNorm then
      let e1 := UpdateTworldUsingTrelative e
      (SlamStatus.excessiveMotion,
       { e1 with NbrFrameProcessed := e.NbrFrameProcessed + 1,
                 Trajectory := e.Trajectory ++ [e1.Tworld.t] })
    else
      let e1 := UpdateTworldUsingTrelative { e with Trelative := trel }
      let twNew := mapSolve e frame e1.Tworld
      let trelNew := Pose.comp (Pose.inv e.Tworld) twNew
      (SlamStatus.ok,
       { e1 with
           Tworld := twNew,
           Trelative := trelNew,
           EdgesPointsLocalMap :=
             (kpE e frame).foldl RollingGrid.insert
               (e.EdgesPointsLocalMap.shift twNew.t),
           PlanarPointsLocalMap :=
             (kpP e frame).foldl RollingGrid.insert
               (e.PlanarPointsLocalMap.shift twNew.t),
           NbrFrameProcessed := e.NbrFrameProcessed + 1,
           Trajectory := e.Trajectory ++ [twNew.t] })
  else
    (SlamStatus.calibrationMissing, e)

/-! ## Macro-generated configuration accessors (slamGetMacro /
slamSetMacro, vtkSlam.h lines 74-84 and 143-240) -/

def Get_DisplayMode (e : vtkSlam) : Bool := e.DisplayMode

def Set_DisplayMode (e : vtkSlam) (v : Bool) : vtkSlam := { e with DisplayMode := v }

def Get_MaxDistBetweenTwoFrames (e : vtkSlam) : ℚ := e.MaxDistBetweenTwoFrames

def Set_MaxDistBetweenTwoFrames (e : vtkSlam) (v : ℚ) : vtkSlam := { e with MaxDistBetweenTwoFrames := v }

def Get_AngleResolution (e : vtkSlam) : ℚ := e.AngleResolution

def Set_AngleResolution (e : vtkSlam) (v : ℚ) : vtkSlam := { e with AngleResolution := v }

def Get_Keypoint_MaxEdgePerScanLine (e : vtkSlam) : ℕ := e.MaxEdgePerScanLine

def Set_Keypoint_MaxEdgePerScanLine (e : vtkSlam) (v : ℕ) : vtkSlam := { e with MaxEdgePerScanLine := v }

def Get_Keypoint_MaxPlanarsPerScanLine (e : vtkSlam) : ℕ := e.MaxPlanarsPerScanLine

def Set_Keypoint_MaxPlanarsPerScanLine (e : vtkSlam) (v : ℕ) : vtkSlam := { e with MaxPlanarsPerScanLine := v }

def Get_Keypoint_MinDistanceToSensor (e : vtkSlam) : ℚ := e.MinDistanceToSensor

def Set_Keypoint_MinDistanceToSensor (e : vtkSlam) (v : ℚ) : vtkSlam := { e with MinDistanceToSensor := v }

def Get_Keypoint_PlaneCurvatureThreshold (e : vtkSlam) : ℚ := e.PlaneCurvatureThreshold

def Set_Keypoint_PlaneCurvatureThreshold (e : vtkSlam) (v : ℚ) : vtkSlam := { e with PlaneCurvatureThreshold := v }

def Get_Keypoint_EdgeCurvatureThreshold (e : vtkSlam) : ℚ := e.EdgeCurvatureThreshold

def Set_Keypoint_EdgeCurvatureThreshold (e : vtkSlam) (v : ℚ) : vtkSlam := { e with EdgeCurvatureThreshold := v }

def Get_EgoMotionMaxIter (e : vtkSlam) : ℕ := e.EgoMotionMaxIter

def Set_EgoMotionMaxIter (e : vtkSlam) (v : ℕ) : vtkSlam := { e with EgoMotionMaxIter := v }

def Get_EgoMotionIcpFrequence (e : vtkSlam) : ℕ := e.EgoMotionIcpFrequence

def Set_EgoMotionIcpFrequence (e : vtkSlam) (v : ℕ) : vtkSlam := { e with EgoMotionIcpFrequence := v }

def Get_EgoMotionLineDistanceNbrNeighbors (e : vtkSlam) : ℕ := e.EgoMotionLineDistanceNbrNeighbors

def Set_EgoMotionLineDistanceNbrNeighbors (e : vtkSlam) (v : ℕ) : vtkSlam := { e with EgoMotionLineDistanceNbrNeighbors := v }

def Get_EgoMotionLineDistancefactor (e : vtkSlam) : ℚ := e.EgoMotionLineDistancefactor

def Set_EgoMotionLineDistancefactor (e : vtkSlam) (v : ℚ) : vtkSlam := { e with EgoMotionLineDistancefactor := v }

def Get_EgoMotionPlaneDistanceNbrNeighbors (e : vtkSlam) : ℕ := e.EgoMotionPlaneDistanceNbrNeighbors

def Set_EgoMotionPlaneDistanceNbrNeighbors (e : vtkSlam) (v : ℕ) : vtkSlam := { e with EgoMotionPlaneDistanceNbrNeighbors := v }

def Get_EgoMotionPlaneDistancefactor1 (e : vtkSlam) : ℚ := e.EgoMotionPlaneDistancefactor1

def Set_EgoMotionPlaneDistancefactor1 (e : vtkSlam) (v : ℚ) : vtkSlam := { e with EgoMotionPlaneDistancefactor1 := v }

def Get_EgoMotionPlaneDistancefactor2 (e : vtkSlam) : ℚ := e.EgoMotionPlaneDistancefactor2

def Set_EgoMotionPlaneDistancefactor2 (e : vtkSlam) (v : ℚ) : vtkSlam := { e with EgoMotionPlaneDistancefactor2 := v }

def Get_EgoMotionMaxLineDistance (e : vtkSlam) : ℚ := e.EgoMotionMaxLineDistance

def Set_EgoMotionMaxLineDistance (e : vtkSlam) (v : ℚ) : vtkSlam := { e with EgoMotionMaxLineDistance := v }

def Get_EgoMotionMaxPlaneDistance (e : vtkSlam) : ℚ := e.EgoMotionMaxPlaneDistance

def Set_EgoMotionMaxPlaneDistance (e : vtkSlam) (v : ℚ) : vtkSlam := { e with EgoMotionMaxPlaneDistance := v }

def Get_MappingMaxIter (e : vtkSlam) : ℕ := e.MappingMaxIter

def Set_MappingMaxIter (e : vtkSlam) (v : ℕ) : vtkSlam := { e with MappingMaxIter := v }

def Get_MappingIcpFrequence (e : vtkSlam) : ℕ := e.MappingIcpFrequence

def Set_MappingIcpFrequence (e : vtkSlam) (v : ℕ) : vtkSlam := { e with MappingIcpFrequence := v }

def Get_MappingLineDistanceNbrNeighbors (e : vtkSlam) : ℕ := e.MappingLineDistanceNbrNeighbors

def Set_MappingLineDistanceNbrNeighbors (e : vtkSlam) (v : ℕ) : vtkSlam := { e with MappingLineDistanceNbrNeighbors := v }

def Get_MappingLineDistancefactor (e : vtkSlam) : ℚ := e.MappingLineDistancefactor

def Set_MappingLineDistancefactor (e : vtkSlam) (v : ℚ) : vtkSlam := { e with MappingLineDistancefactor := v }

def Get_MappingPlaneDistanceNbrNeighbors (e : vtkSlam) : ℕ := e.MappingPlaneDistanceNbrNeighbors

def Set_MappingPlaneDistanceNbrNeighbors (e : vtkSlam) (v : ℕ) : vtkSlam := { e with MappingPlaneDistanceNbrNeighbors := v }

def Get_MappingPlaneDistancefactor1 (e : vtkSlam) : ℚ := e.MappingPlaneDistancefactor1

def Set_MappingPlaneDistancefactor1 (e : vtkSlam) (v : ℚ) : vtkSlam := { e with MappingPlaneDistancefactor1 := v }

def Get_MappingPlaneDistancefactor2 (e : vtkSlam) : ℚ := e.MappingPlaneDistancefactor2

def Set_MappingPlaneDistancefactor2 (e : vtkSlam) (v : ℚ) : vtkSlam := { e with MappingPlaneDistancefactor2 := v }

def Get_MappingMaxLineDistance (e : vtkSlam) : ℚ := e.MappingMaxLineDistance

def Set_MappingMaxLineDistance (e : vtkSlam) (v : ℚ) : vtkSlam := { e with MappingMaxLineDistance := v }

def Get_MappingMaxPlaneDistance (e : vtkSlam) : ℚ := e.MappingMaxPlaneDistance

def Set_MappingMaxPlaneDistance (e : vtkSlam) (v : ℚ) : vtkSlam := { e with MappingMaxPlaneDistance := v }

def Get_MinPointToLineOrEdgeDistance (e : vtkSlam) : ℚ := e.MinPointToLineOrEdgeDistance

def Set_MinPointToLineOrEdgeDistance (e : vtkSlam) (v : ℚ) : vtkSlam := { e with MinPointToLineOrEdgeDistance := v }

/-- C10: every setter generated by `slamSetMacro` writes exactly its one
named member: the matching getter then returns exactly the set value, and
the whole engine state equals the input state with only that member
replaced (so poses, rolling grids, trajectory, frame counter and every
other property are unchanged); shown for all 27 macro instances of the
header. -/
theorem slamSetMacro_spec (e : vtkSlam) (vb : Bool) (vq : ℚ) (vn : ℕ) :
    (Get_DisplayMode (Set_DisplayMode e vb) = vb ∧
      Set_DisplayMode e vb = { e with DisplayMode := vb }) ∧
    (Get_MaxDistBetweenTwoFrames (Set_MaxDistBetweenTwoFrames e vq) = vq ∧
      Set_MaxDistBetweenTwoFrames e vq = { e with MaxDistBetweenTwoFrames := vq }) ∧
    (Get_AngleResolution (Set_AngleResolution e vq) = vq ∧
      Set_AngleResolution e vq = { e with AngleResolution := vq }) ∧
    (Get_Keypoint_MaxEdgePerScanLine (Set_Keypoint_MaxEdgePerScanLine e vn) = vn ∧
      Set_Keypoint_MaxEdgePerScanLine e vn = { e with MaxEdgePerScanLine := vn }) ∧
    (Get_Keypoint_MaxPlanarsPerScanLine (Set_Keypoint_MaxPlanarsPerScanLine e vn) = vn ∧
      Set_Keypoint_MaxPlanarsPerScanLine e vn = { e with MaxPlanarsPerScanLine := vn }) ∧
    (Get_Keypoint_MinDistanceToSensor (Set_Keypoint_MinDistanceToSensor e vq) = vq ∧
      Set_Keypoint_MinDistanceToSensor e vq = { e with MinDistanceToSensor := vq }) ∧
    (Get_Keypoint_PlaneCurvatureThreshold (Set_Keypoint_PlaneCurvatureThreshold e vq) = vq ∧
      Set_Keypoint_PlaneCurvatureThreshold e vq = { e with PlaneCurvatureThreshold := vq }) ∧
    (Get_Keypoint_EdgeCurvatureThreshold (Set_Keypoint_EdgeCurvatureThreshold e vq) = vq ∧
      Set_Keypoint_EdgeCurvatureThreshold e vq = { e with EdgeCurvatureThreshold := vq }) ∧
    (Get_EgoMotionMaxIter (Set_EgoMotionMaxIter e vn) = vn ∧
      Set_EgoMotionMaxIter e vn = { e with EgoMotionMaxIter := vn }) ∧
    (Get_EgoMotionIcpFrequence (Set_EgoMotionIcpFrequence e vn) = vn ∧
      Set_EgoMotionIcpFrequence e vn = { e with EgoMotionIcpFrequence := vn }) ∧
    (Get_EgoMotionLineDistanceNbrNeighbors (Set_EgoMotionLineDistanceNbrNeighbors e vn) = vn ∧
      Set_EgoMotionLineDistanceNbrNeighbors e vn = { e with EgoMotionLineDistanceNbrNeighbors := vn }) ∧
    (Get_EgoMotionLineDistancefactor (Set_EgoMotionLineDistancefactor e vq) = vq ∧
      Set_EgoMotionLineDistancefactor e vq = { e with EgoMotionLineDistancefactor := vq }) ∧
    (Get_EgoMotionPlaneDistanceNbrNeighbors (Set_EgoMotionPlaneDistanceNbrNeighbors e vn) = vn ∧
      Set_EgoMotionPlaneDistanceNbrNeighbors e vn = { e with EgoMotionPlaneDistanceNbrNeighbors := vn }) ∧
    (Get_EgoMotionPlaneDistancefactor1 (Set_EgoMotionPlaneDistancefactor1 e vq) = vq ∧
      Set_EgoMotionPlaneDistancefactor1 e vq = { e with EgoMotionPlaneDistancefactor1 := vq }) ∧
    (Get_EgoMotionPlaneDistancefactor2 (Set_EgoMotionPlaneDistancefactor2 e vq) = vq ∧
      Set_EgoMotionPlaneDistancefactor2 e vq = { e with EgoMotionPlaneDistancefactor2 := vq }) ∧
    (Get_EgoMotionMaxLineDistance (Set_EgoMotionMaxLineDistance e vq) = vq ∧
      Set_EgoMotionMaxLineDistance e vq = { e with EgoMotionMaxLineDistance := vq }) ∧
    (Get_EgoMotionMaxPlaneDistance (Set_EgoMotionMaxPlaneDistance e vq) = vq ∧
      Set_EgoMotionMaxPlaneDistance e vq = { e with EgoMotionMaxPlaneDistance := vq }) ∧
    (Get_MappingMaxIter (Set_MappingMaxIter e vn) = vn ∧
      Set_MappingMaxIter e vn = { e with MappingMaxIter := vn }) ∧
    (Get_MappingIcpFrequence (Set_MappingIcpFrequence e vn) = vn ∧
      Set_MappingIcpFrequence e vn = { e with MappingIcpFrequence := vn }) ∧
    (Get_MappingLineDistanceNbrNeighbors (Set_MappingLineDistanceNbrNeighbors e vn) = vn ∧
      Set_MappingLineDistanceNbrNeighbors e vn = { e with MappingLineDistanceNbrNeighbors := vn }) ∧
    (Get_MappingLineDistancefactor (Set_MappingLineDistancefactor e vq) = vq ∧
      Set_MappingLineDistancefactor e vq = { e with MappingLineDistancefactor := vq }) ∧
    (Get_MappingPlaneDistanceNbrNeighbors (Set_MappingPlaneDistanceNbrNeighbors e vn) = vn ∧
      Set_MappingPlaneDistanceNbrNeighbors e vn = { e with MappingPlaneDistanceNbrNeighbors := vn }) ∧
    (Get_MappingPlaneDistancefactor1 (Set_MappingPlaneDistancefactor1 e vq) = vq ∧
      Set_MappingPlaneDistancefactor1 e vq = { e with MappingPlaneDistancefactor1 := vq }) ∧
    (Get_MappingPlaneDistancefactor2 (Set_MappingPlaneDistancefactor2 e vq) = vq ∧
      Set_MappingPlaneDistancefactor2 e vq = { e with MappingPlaneDistancefactor2 := vq }) ∧
    (Get_MappingMaxLineDistance (Set_MappingMaxLineDistance e vq) = vq ∧
      Set_MappingMaxLineDistance e vq = { e with MappingMaxLineDistance := vq }) ∧
    (Get_MappingMaxPlaneDistance (Set_MappingMaxPlaneDistance e vq) = vq ∧
      Set_MappingMaxPlaneDistance e vq = { e with MappingMaxPlaneDistance := vq }) ∧
    (Get_MinPointToLineOrEdgeDistance (Set_MinPointToLineOrEdgeDistance e vq) = vq ∧
      Set_MinPointToLineOrEdgeDistance e vq = { e with MinPointToLineOrEdgeDistance := vq }) := by
  and_intros <;> rfl

/-! ## Claim theorems on the engine -/

/-- Ego-motion oracle returning the identity motion. -/
def egoZero : vtkSlam → List SlamPoint → Pose := fun _ _ => Pose.idPose

/-- Ego-motion oracle returning a 10 m jump along x. -/
def egoJump : vtkSlam → List SlamPoint → Pose := fun _ _ => ⟨I3, ⟨10, 0, 0⟩⟩

/-- Mapping oracle keeping the ego-motion guess unchanged. -/
def mapKeep : vtkSlam → List SlamPoint → Pose → Pose := fun _ _ g => g

/-- Keypoint oracle extracting no keypoints. -/
def kpNone : vtkSlam → List SlamPoint → List V3 := fun _ _ => []

/-- A concrete 2x2x2 rolling grid with voxel side 1 anchored at the
origin-centered window. -/
def witGrid : RollingGrid :=
  ⟨1, 2, 2, 2, -1, -1, -1, []⟩

/-- A concrete calibrated engine state used by the witnesses. -/
def witEngine : vtkSlam where
  Trajectory := []
  NbrFrameProcessed := 0
  LaserIdMapping := [0]
  NLasers := 1
  Trelative := Pose.idPose
  Tworld := Pose.idPose
  EdgesPointsLocalMap := witGrid
  PlanarPointsLocalMap := witGrid
  DisplayMode := false
  MaxDistBetweenTwoFrames := 5
  AngleResolution := 0
  MaxEdgePerScanLine := 0
  MaxPlanarsPerScanLine := 0
  MinDistanceToSensor := 0
  PlaneCurvatureThreshold := 0
  EdgeCurvatureThreshold := 0
  EgoMotionMaxIter := 0
  EgoMotionIcpFrequence := 0
  EgoMotionLineDistanceNbrNeighbors := 0
  EgoMotionLineDistancefactor := 0
  EgoMotionPlaneDistanceNbrNeighbors := 0
  EgoMotionPlaneDistancefactor1 := 0
  EgoMotionPlaneDistancefactor2 := 0
  EgoMotionMaxLineDistance := 0
  EgoMotionMaxPlaneDistance := 0
  MappingMaxIter := 0
  MappingIcpFrequence := 0
  MappingLineDistanceNbrNeighbors := 0
  MappingLineDistancefactor := 0
  MappingPlaneDistanceNbrNeighbors := 0
  MappingPlaneDistancefactor1 := 0
  MappingPlaneDistancefactor2 := 0
  MappingMaxLineDistance := 0
  MappingMaxPlaneDistance := 0
  MinPointToLineOrEdgeDistance := 0

/-- C4: calling `AddFrame` before `SetSensorCalibration` fails with the
CalibrationMissing error and leaves the entire engine state unchanged. -/
theorem AddFrame_calibrationMissing
    (egoSolve : vtkSlam → List SlamPoint → Pose)
    (mapSolve : vtkSlam → List SlamPoint → Pose → Pose)
    (kpE kpP : vtkSlam → List SlamPoint → List V3)
    (e : vtkSlam) (frame : List SlamPoint)
    (h : GetIsSensorCalibrationProvided e = false) :
    (AddFrame egoSolve mapSolve kpE kpP e frame).1 =
      SlamStatus.calibrationMissing ∧
    (AddFrame egoSolve mapSolve kpE kpP e frame).2 = e := by
  simp [AddFrame, h]

/-- Witness for C4: an uncalibrated engine (empty laser-id mapping). -/
theorem AddFrame_calibrationMissing_witness :
    (AddFrame egoZero mapKeep kpNone kpNone
      { witEngine with LaserIdMapping := [] } []).1 =
      SlamStatus.calibrationMissing ∧
    (AddFrame egoZero mapKeep kpNone kpNone
      { witEngine with LaserIdMapping := [] } []).2 =
      { witEngine with LaserIdMapping := [] } :=
  AddFrame_calibrationMissing egoZero mapKeep kpNone kpNone
    { witEngine with LaserIdMapping := [] } [] (by decide)

/-- C5: when the ego-motion translation exceeds
`MaxDistBetweenTwoFrames` (compared through squares, which is equivalent
for a nonnegative bound), the frame is flagged ExcessiveMotion, the
mapping stage is skipped (the pose only advances by constant-velocity
dead-reckoning with the previous `T_rel`), and both rolling-grid local
maps are exactly unchanged. -/
theorem AddFrame_excessiveMotion
    (egoSolve : vtkSlam → List SlamPoint → Pose)
    (mapSolve : vtkSlam → List SlamPoint → Pose → Pose)
    (kpE kpP : vtkSlam → List SlamPoint → List V3)
    (e : vtkSlam) (frame : List SlamPoint)
    (hcal : GetIsSensorCalibrationProvided e = true)
    (hex : e.MaxDistBetweenTwoFrames ^ 2 < (egoSolve e frame).t.sqNorm) :
    (AddFrame egoSolve mapSolve kpE kpP e frame).1 =
      SlamStatus.excessiveMotion ∧
    (AddFrame egoSolve mapSolve kpE kpP e frame).2.EdgesPointsLocalMap =
      e.EdgesPointsLocalMap ∧
    (AddFrame egoSolve mapSolve kpE kpP e frame).2.PlanarPointsLocalMap =
      e.PlanarPointsLocalMap ∧
    (AddFrame egoSolve mapSolve kpE kpP e frame).2.Tworld =
      Pose.comp e.Tworld e.Trelative ∧
    (AddFrame egoSolve mapSolve kpE kpP e frame).2.Trelative =
      e.Trelative := by
  simp [AddFrame, hcal, hex, UpdateTworldUsingTrelative]

/-- Witness for C5: a 10 m jump against a 5 m bound on the concrete
calibrated engine. -/
theorem AddFrame_excessiveMotion_witness :
    (AddFrame egoJump mapKeep kpNone kpNone witEngine []).1 =
      SlamStatus.excessiveMotion ∧
    (AddFrame egoJump mapKeep kpNone kpNone witEngine []).2.EdgesPointsLocalMap =
      witEngine.EdgesPointsLocalMap ∧
    (AddFrame egoJump mapKeep kpNone kpNone witEngine []).2.PlanarPointsLocalMap =
      witEngine.PlanarPointsLocalMap ∧
    (AddFrame egoJump mapKeep kpNone kpNone witEngine []).2.Tworld =
      Pose.comp witEngine.Tworld witEngine.Trelative ∧
    (AddFrame egoJump mapKeep kpNone kpNone witEngine []).2.Trelative =
      witEngine.Trelative :=
  AddFrame_excessiveMotion egoJump mapKeep kpNone kpNone witEngine []
    (by decide)
    (by norm_num [witEngine, egoJump, V3.sqNorm])

/-- C1: `UpdateTworldUsingTrelative` computes exactly the composition of
the previous `T_world` with `T_relative`, and after every processed frame
(any `AddFrame` call that passes the calibration guard, for arbitrary
solver oracles) the stored poses satisfy the composition law
`T_world(k) = T_world(k−1) ⊙ T_rel(k)` exactly, provided the previous
world rotation is orthogonal. -/
theorem UpdateTworldUsingTrelative_spec
    (egoSolve : vtkSlam → List SlamPoint → Pose)
    (mapSolve : vtkSlam → List SlamPoint → Pose → Pose)
    (kpE kpP : vtkSlam → List SlamPoint → List V3)
    (e : vtkSlam) (frame : List SlamPoint)
    (hR : e.Tworld.R * e.Tworld.R.transpose = I3)
    (hcal : GetIsSensorCalibrationProvided e = true) :
    UpdateTworldUsingTrelative e =
      { e with Tworld := Pose.comp e.Tworld e.Trelative } ∧
    (AddFrame egoSolve mapSolve kpE kpP e frame).2.Tworld =
      Pose.comp e.Tworld
        (AddFrame egoSolve mapSolve kpE kpP e frame).2.Trelative := by
  refine ⟨rfl, ?_⟩
  simp only [AddFrame, hcal, if_true]
  split
  · simp [UpdateTworldUsingTrelative]
  · simp only [UpdateTworldUsingTrelative]
    exact (Pose.comp_inv_cancel e.Tworld
      (mapSolve e frame (Pose.comp e.Tworld (egoSolve e frame))) hR).symm

/-- Witness for C1: identity-rotation world pose on the concrete
calibrated engine with identity oracles. -/
theorem UpdateTworldUsingTrelative_spec_witness :
    UpdateTworldUsingTrelative witEngine =
      { witEngine with
          Tworld := Pose.comp witEngine.Tworld witEngine.Trelative } ∧
    (AddFrame egoZero mapKeep kpNone kpNone witEngine []).2.Tworld =
      Pose.comp witEngine.Tworld
        (AddFrame egoZero mapKeep kpNone kpNone witEngine []).2.Trelative :=
  UpdateTworldUsingTrelative_spec egoZero mapKeep kpNone kpNone witEngine []
    (by norm_num [witEngine, Pose.idPose, I3, M3.transpose, M3.mul_def, M3.mul])
    (by decide)

/-- C6: `ResetAlgorithm` clears both rolling-grid local maps, both poses
and the trajectory, while the sensor calibration (laser-id mapping and
laser count) is retained: calibration still reads as provided and a
subsequent `AddFrame` does not fail with CalibrationMissing. -/
theorem ResetAlgorithm_spec
    (egoSolve : vtkSlam → List SlamPoint → Pose)
    (mapSolve : vtkSlam → List SlamPoint → Pose → Pose)
    (kpE kpP : vtkSlam → List SlamPoint → List V3)
    (e : vtkSlam) (frame : List SlamPoint)
    (hcal : GetIsSensorCalibrationProvided e = true) :
    (ResetAlgorithm e).EdgesPointsLocalMap.cells = [] ∧
    (ResetAlgorithm e).PlanarPointsLocalMap.cells = [] ∧
    (ResetAlgorithm e).Trelative = Pose.idPose ∧
    (ResetAlgorithm e).Tworld = Pose.idPose ∧
    (ResetAlgorithm e).Trajectory = [] ∧
    (ResetAlgorithm e).LaserIdMapping = e.LaserIdMapping ∧
    (ResetAlgorithm e).NLasers = e.NLasers ∧
    GetIsSensorCalibrationProvided (ResetAlgorithm e) = true ∧
    (AddFrame egoSolve mapSolve kpE kpP (ResetAlgorithm e) frame).1 ≠
      SlamStatus.calibrationMissing := by
  refine ⟨rfl, rfl, rfl, rfl, rfl, rfl, rfl, hcal, ?_⟩
  have h2 : GetIsSensorCalibrationProvided (ResetAlgorithm e) = true := hcal
  simp only [AddFrame, h2, if_true]
  split <;> simp

/-- Witness for C6: resetting the concrete calibrated engine. -/
theorem ResetAlgorithm_spec_witness :
    (ResetAlgorithm witEngine).EdgesPointsLocalMap.cells = [] ∧
    (ResetAlgorithm witEngine).PlanarPointsLocalMap.cells = [] ∧
    (ResetAlgorithm witEngine).Trelative = Pose.idPose ∧
    (ResetAlgorithm witEngine).Tworld = Pose.idPose ∧
    (ResetAlgorithm witEngine).Trajectory = [] ∧
    (ResetAlgorithm witEngine).LaserIdMapping = witEngine.LaserIdMapping ∧
    (ResetAlgorithm witEngine).NLasers = witEngine.NLasers ∧
    GetIsSensorCalibrationProvided (ResetAlgorithm witEngine) = true ∧
    (AddFrame egoZero mapKeep kpNone kpNone (ResetAlgorithm witEngine) []).1 ≠
      SlamStatus.calibrationMissing :=
  ResetAlgorithm_spec egoZero mapKeep kpNone kpNone witEngine [] (by decide)

theorem shift_insert_anchored (g : RollingGrid) (c : V3) (l : List V3)
    (hL : 0 < g.VoxelSize) (hwf : g.wf) :
    (l.foldl RollingGrid.insert (g.shift c)).wf ∧
    (l.foldl RollingGrid.insert (g.shift c)).nearCenter c := by
  have hs := RollingGrid.shift_wf g c hwf
  have hw := foldl_insert_wf l (g.shift c) hs.1
  have hf := foldl_insert_fields l (g.shift c)
  refine ⟨hw, ?_⟩
  apply RollingGrid.wf_nearCenter _ _ ?_ ?_ ?_ ?_ hw
  · rw [hf.1]
    exact hL
  · rw [hf.2.2.2.2.1, hs.2.1]
    unfold RollingGrid.anchorX
    rw [hf.1, hf.2.1]
    rfl
  · rw [hf.2.2.2.2.2.1, hs.2.2.1]
    unfold RollingGrid.anchorY
    rw [hf.1, hf.2.2.1]
    rfl
  · rw [hf.2.2.2.2.2.2, hs.2.2.2]
    unfold RollingGrid.anchorZ
    rw [hf.1, hf.2.2.2.1]
    rfl

/-- C3 (amended): the rolling-grid invariant — every stored point's
continuous voxel index (floor of coordinate over voxel side) is congruent
to its bucket `(i,j,k)` modulo the grid dimensions, and the point lies in
the voxel-aligned window of `Gx×Gy×Gz` voxels anchored at
`⌊c/L_vox⌋ − G/2` — is preserved by Insert, established by Shift, and
holds for both local maps after any `AddFrame` whose mapping stage runs,
relative to the new `T_world(k)`; the window contains the sensor position
and is centered on it up to one voxel: every stored point is within
`(G/2 + 1)·L_vox` of the center per axis.  Submap returns only stored
points and mutates nothing. -/
theorem RollingGrid_invariant_spec
    (g : RollingGrid) (p c q : V3) (half : ℕ)
    (egoSolve : vtkSlam → List SlamPoint → Pose)
    (mapSolve : vtkSlam → List SlamPoint → Pose → Pose)
    (kpE kpP : vtkSlam → List SlamPoint → List V3)
    (e : vtkSlam) (frame : List SlamPoint)
    (hL : 0 < g.VoxelSize) (hwf : g.wf)
    (heL : 0 < e.EdgesPointsLocalMap.VoxelSize)
    (hpL : 0 < e.PlanarPointsLocalMap.VoxelSize)
    (hewf : e.EdgesPointsLocalMap.wf) (hpwf : e.PlanarPointsLocalMap.wf)
    (hcal : GetIsSensorCalibrationProvided e = true)
    (hok : ¬ e.MaxDistBetweenTwoFrames ^ 2 < (egoSolve e frame).t.sqNorm) :
    (g.insert p).wf ∧
    (g.shift c).wf ∧
    (g.shift c).originX = g.anchorX c ∧
    (g.shift c).originY = g.anchorY c ∧
    (g.shift c).originZ = g.anchorZ c ∧
    ((g.shift c).insert p).nearCenter c ∧
    ((g.submap q half).all fun v => (g.cells.map Prod.snd).contains v) = true ∧
    (AddFrame egoSolve mapSolve kpE kpP e frame).2.EdgesPointsLocalMap.wf ∧
    (AddFrame egoSolve mapSolve kpE kpP e frame).2.PlanarPointsLocalMap.wf ∧
    (AddFrame egoSolve mapSolve kpE kpP e
      frame).2.EdgesPointsLocalMap.nearCenter
      (AddFrame egoSolve mapSolve kpE kpP e frame).2.Tworld.t ∧
    (AddFrame egoSolve mapSolve kpE kpP e
      frame).2.PlanarPointsLocalMap.nearCenter
      (AddFrame egoSolve mapSolve kpE kpP e frame).2.Tworld.t := by
  have hs := RollingGrid.shift_wf g c hwf
  have hnear : ((g.shift c).insert p).nearCenter c := by
    have := shift_insert_anchored g c [p] hL hwf
    simpa using this.2
  have hsub : ((g.submap q half).all fun v =>
      (g.cells.map Prod.snd).contains v) = true := by
    rw [List.all_eq_true]
    intro v hv
    unfold RollingGrid.submap at hv
    rcases List.mem_map.mp hv with ⟨ce, hce, rfl⟩
    have : ce ∈ g.cells := (List.mem_filter.mp hce).1
    exact List.elem_iff.mpr (List.mem_map_of_mem Prod.snd this)
  have hAE := shift_insert_anchored e.EdgesPointsLocalMap
    (mapSolve e frame (Pose.comp e.Tworld (egoSolve e frame))).t
    (kpE e frame) heL hewf
  have hAP := shift_insert_anchored e.PlanarPointsLocalMap
    (mapSolve e frame (Pose.comp e.Tworld (egoSolve e frame))).t
    (kpP e frame) hpL hpwf
  refine ⟨g.insert_wf p hwf, hs.1, hs.2.1, hs.2.2.1, hs.2.2.2, hnear, hsub,
    ?_, ?_, ?_, ?_⟩ <;>
    simp only [AddFrame, hcal, if_true, if_neg hok, UpdateTworldUsingTrelative]
  · exact hAE.1
  · exact hAP.1
  · exact hAE.2
  · exact hAP.2

/-- Counterexample for C3 as stated: on a concrete 2×2×2 grid with voxel
side 1 shifted onto the sensor position `(1/2, 1/2, 1/2)`, the inserted
point `(−99/100, 0, 0)` is stored, yet its x distance to the sensor is
1.49 > 1 = `Gx·L_vox/2`, so the stored point does not lie in a cubic
window of side `Gx·L_vox` exactly centered on the sensor position (the
real window is voxel-aligned). -/
theorem RollingGrid_centered_window_cex :
    (⟨-99/100, 0, 0⟩ : V3) ∈
      (((witGrid.shift ⟨1/2, 1/2, 1/2⟩).insert ⟨-99/100, 0, 0⟩).cells.map
        Prod.snd) ∧
    ¬ (|(-99/100 : ℚ) - 1/2| ≤
        ((witGrid.NbVoxelX : ℚ) * witGrid.VoxelSize) / 2) := by
  constructor
  · have hfa : (⌊(2⁻¹ : ℚ)⌋ : ℤ) = 0 := by norm_num
    have hfb : (⌊(-99 / 100 : ℚ)⌋ : ℤ) = -1 := by
      rw [Int.floor_eq_iff] <;> norm_num
    simp [RollingGrid.shift, RollingGrid.insert, witGrid, RollingGrid.anchorX,
      RollingGrid.anchorY, RollingGrid.anchorZ, voxelFloor, hfa, hfb,
      RollingGrid.inWindow, RollingGrid.bucketOf]
  · have habs : |(-99/100 : ℚ) - 1/2| = 149/100 := by
      rw [abs_of_nonpos (by norm_num : ((-99/100 : ℚ) - 1/2) ≤ 0)]
      norm_num
    rw [habs]
    norm_num [witGrid]

/-- Witness for C3 on the concrete empty 2×2×2 grid and the concrete
calibrated engine with identity oracles. -/
theorem RollingGrid_invariant_spec_witness :
    (witGrid.insert ⟨0, 0, 0⟩).wf ∧
    (witGrid.shift ⟨0, 0, 0⟩).wf ∧
    (witGrid.shift ⟨0, 0, 0⟩).originX = witGrid.anchorX ⟨0, 0, 0⟩ ∧
    (witGrid.shift ⟨0, 0, 0⟩).originY = witGrid.anchorY ⟨0, 0, 0⟩ ∧
    (witGrid.shift ⟨0, 0, 0⟩).originZ = witGrid.anchorZ ⟨0, 0, 0⟩ ∧
    ((witGrid.shift ⟨0, 0, 0⟩).insert ⟨0, 0, 0⟩).nearCenter ⟨0, 0, 0⟩ ∧
    ((witGrid.submap ⟨0, 0, 0⟩ 1).all fun v =>
      (witGrid.cells.map Prod.snd).contains v) = true ∧
    (AddFrame egoZero mapKeep kpNone kpNone witEngine
      []).2.EdgesPointsLocalMap.wf ∧
    (AddFrame egoZero mapKeep kpNone kpNone witEngine
      []).2.PlanarPointsLocalMap.wf ∧
    (AddFrame egoZero mapKeep kpNone kpNone witEngine
      []).2.EdgesPointsLocalMap.nearCenter
      (AddFrame egoZero mapKeep kpNone kpNone witEngine []).2.Tworld.t ∧
    (AddFrame egoZero mapKeep kpNone kpNone witEngine
      []).2.PlanarPointsLocalMap.nearCenter
      (AddFrame egoZero mapKeep kpNone kpNone witEngine []).2.Tworld.t :=
  RollingGrid_invariant_spec witGrid ⟨0, 0, 0⟩ ⟨0, 0, 0⟩ ⟨0, 0, 0⟩ 1
    egoZero mapKeep kpNone kpNone witEngine []
    (by norm_num [witGrid]) (by intro x hx; cases hx)
    (by norm_num [witEngine, witGrid]) (by norm_num [witEngine, witGrid])
    (by intro x hx; cases hx) (by intro x hx; cases hx)
    (by decide) (by norm_num [witEngine, egoZero, Pose.idPose, V3.sqNorm, V3.zero])

end VeloSlam
